import Mathlib

/-
  Verification development for the enquetes importer repository
  (src/enquetes_importer.py and src/google_spreadsheet.py).

  The two Python modules are two revisions of the same spreadsheet-to-database
  importer.  The definitions below are a shallow embedding of the pure,
  record-building core of both revisions.  Strings are modelled as explicit
  character lists (List Char), so that the character-wise normalisation steps
  (width folding, separator replacement, stripping) can be reasoned about
  directly.  External collaborators (the spreadsheet fetch and the database)
  are modelled at the boundary: fetched rows are parameters, and database
  effects are reified as an explicit list of operations.
-/

namespace Enq

/-- Characters lists stand in for Python strings. -/
abbrev Str := List Char

/-- Abbreviation used to write string literals as character lists. -/
def strOf (s : String) : Str := s.data

/-- Whitespace characters stripped by Python str.strip: ASCII whitespace,
NBSP and the ideographic (full-width) space.  Python strips all Unicode
whitespace; the importer only ever meets these. -/
def isPySpace (c : Char) : Bool :=
  c = ' ' || c = '\t' || c = '\n' || c = '\r' ||
  c = Char.ofNat 11 || c = Char.ofNat 12 ||
  c = Char.ofNat 0xa0 || c = Char.ofNat 0x3000

/-- Mirrors Python str.strip(): drop leading and trailing whitespace. -/
def pyStrip (s : Str) : Str :=
  ((s.dropWhile isPySpace).reverse.dropWhile isPySpace).reverse

/-- Mirrors normalize_cell_value (identical in both source files): None
becomes the empty string, strings are stripped.  Worksheet cells arrive as
strings; the str() branch for other scalars is not needed here. -/
def normalizeCellValue : Option Str → Str
  | none => []
  | some s => pyStrip s

/-- Mirrors normalize_header_name (identical in both source files). -/
def normalizeHeaderName (s : Option Str) : Str := normalizeCellValue s

/-- Character-wise width folding, modelling jaconv.z2h(value, digit=True,
ascii=True): the full-width ASCII block U+FF01..U+FF5E is folded onto
U+0021..U+007E and the ideographic space onto the ASCII space.  The kana=True
default of jaconv also folds full-width katakana to half-width; katakana is
not numeric before or after that fold, so it is left unchanged here. -/
def z2hChar (c : Char) : Char :=
  if 0xff01 ≤ c.toNat && c.toNat ≤ 0xff5e then Char.ofNat (c.toNat - 0xfee0)
  else if c.toNat = 0x3000 then ' '
  else c

/-- Width folding over a whole string. -/
def z2h (s : Str) : Str := s.map z2hChar

/-- Character-wise half-to-full folding, modelling jaconv.h2z(value) with its
defaults (kana only): half-width katakana U+FF61..U+FF9F is mapped onto the
corresponding full-width block.  jaconv additionally merges a following voiced
sound mark into one character; that merge never affects any claim here and is
not modelled. -/
def h2zChar (c : Char) : Char :=
  if 0xff61 ≤ c.toNat && c.toNat ≤ 0xff9f then Char.ofNat (c.toNat - 0xff61 + 0x30a1)
  else c

/-- Half-to-full folding over a whole string. -/
def h2z (s : Str) : Str := s.map h2zChar

/-- Decimal digit value of a character, accepting the ASCII and the full-width
digits, as Python str.isdecimal and int() do for the inputs met here. -/
def decDigit? (c : Char) : Option Nat :=
  if '0' ≤ c && c ≤ '9' then some (c.toNat - '0'.toNat)
  else if 0xff10 ≤ c.toNat && c.toNat ≤ 0xff19 then some (c.toNat - 0xff10)
  else none

/-- Mirrors Python str.isdecimal(): non-empty and all decimal digits. -/
def pyIsDecimal (s : Str) : Bool :=
  !s.isEmpty && s.all (fun c => (decDigit? c).isSome)

/-- Numeric value of a digit list (most significant first). -/
def natOfDigits (ds : List Nat) : Nat :=
  ds.foldl (fun acc d => acc * 10 + d) 0

/-- Value of a string of decimal digits, as Python int() on a decimal string. -/
def decimalVal (s : Str) : Int :=
  Int.ofNat (natOfDigits (s.filterMap decDigit?))

/-- Greedy digit scan: leading decimal digits and the rest of the string. -/
def takeDigits : Str → (List Nat × Str)
  | [] => ([], [])
  | c :: rest =>
    match decDigit? c with
    | some d =>
      let p := takeDigits rest
      (d :: p.1, p.2)
    | none => ([], c :: rest)

/-- Exact value of a parsed floating-point literal, kept as an integer
numerator over a positive power-of-ten denominator.  Python rounds this exact
value to binary floating point; the importer only truncates the parse result
or compares it against the clamp bounds, for which the exact decimal value is
the faithful model. -/
structure DecVal where
  num : Int
  den : Nat
  deriving DecidableEq, Repr

/-- Truncation toward zero of the value, as Python int(float_value). -/
def DecVal.trunc (d : DecVal) : Int := Int.tdiv d.num (Int.ofNat d.den)

/-- Model of Python float(text) on the already-stripped text: an optional
sign, then digits with an optional fractional part and an optional exponent.
Python additionally accepts underscores between digits and the inf/nan
spellings; no importer input uses those and they are not modelled. -/
def pyFloatCore (s : Str) : Option DecVal :=
  let (sign, s1) : Int × Str :=
    match s with
    | '-' :: r => (-1, r)
    | '+' :: r => (1, r)
    | _ => (1, s)
  let (ip, s2) := takeDigits s1
  let (fp, s3) : Option (List Nat) × Str :=
    match s2 with
    | '.' :: r => let (ds, r2) := takeDigits r; (some ds, r2)
    | _ => (none, s2)
  if ip.isEmpty && (fp.getD []).isEmpty then none
  else
    let mantNum : Int := sign * Int.ofNat (natOfDigits (ip ++ fp.getD []))
    let mantDen : Nat := 10 ^ (fp.getD []).length
    let withExp : Int → Option DecVal := fun e =>
      if 0 ≤ e then some ⟨mantNum * Int.ofNat (10 ^ e.toNat), mantDen⟩
      else some ⟨mantNum, mantDen * 10 ^ (-e).toNat⟩
    match s3 with
    | [] => some ⟨mantNum, mantDen⟩
    | 'e' :: r =>
      match (match r with
             | '-' :: t => ((-1 : Int), t)
             | '+' :: t => ((1 : Int), t)
             | _ => ((1 : Int), r)) with
      | (esign, r1) =>
        let (eds, r2) := takeDigits r1
        if eds.isEmpty || !r2.isEmpty then none
        else withExp (esign * Int.ofNat (natOfDigits eds))
    | 'E' :: r =>
      match (match r with
             | '-' :: t => ((-1 : Int), t)
             | '+' :: t => ((1 : Int), t)
             | _ => ((1 : Int), r)) with
      | (esign, r1) =>
        let (eds, r2) := takeDigits r1
        if eds.isEmpty || !r2.isEmpty then none
        else withExp (esign * Int.ofNat (natOfDigits eds))
    | _ => none

/-- Python float() strips surrounding whitespace before parsing. -/
def pyFloat (s : Str) : Option DecVal := pyFloatCore (pyStrip s)

/-- Calendar date, the result of datetime.date(). -/
structure PyDate where
  year : Nat
  month : Nat
  day : Nat
  deriving DecidableEq, Repr

/-- Timestamp, the result of dateutil parsing; tzName models the attached
tzinfo (none for a naive datetime). -/
structure PyDateTime where
  year : Nat
  month : Nat
  day : Nat
  hour : Nat
  minute : Nat
  second : Nat
  tzName : Option Str
  deriving DecidableEq, Repr

/-- Calendar-date component of a timestamp, as datetime.date(). -/
def PyDateTime.dateOf (d : PyDateTime) : PyDate := ⟨d.year, d.month, d.day⟩

/-- Gregorian leap-year rule. -/
def isLeap (y : Nat) : Bool := (y % 4 = 0 && y % 100 ≠ 0) || y % 400 = 0

/-- Days in a month of the proleptic Gregorian calendar. -/
def daysInMonth (y m : Nat) : Nat :=
  if m = 2 then (if isLeap y then 29 else 28)
  else if m = 4 || m = 6 || m = 9 || m = 11 then 30
  else 31

/-- Splits a string at a separator character, keeping empty pieces. -/
def splitOnChar (sep : Char) : Str → List Str
  | [] => [[]]
  | c :: rest =>
    let r := splitOnChar sep rest
    if c = sep then [] :: r
    else match r with
      | [] => [[c]]
      | p :: ps => (c :: p) :: ps

/-- All-decimal piece read as a number, or none. -/
def decPiece? (s : Str) : Option Nat :=
  if pyIsDecimal s then some (natOfDigits (s.filterMap decDigit?)) else none

/-- Two-digit years are widened the way dateutil does: 0..68 land in the
2000s, 69..99 in the 1900s. -/
def widenYear (y : Nat) : Nat :=
  if y < 69 then 2000 + y else if y < 100 then 1900 + y else y

/-- Date token of the form y/m/d or y-m-d (year first, as the importer calls
dateutil with yearfirst=True, dayfirst=False), validated against the
calendar. -/
def parseDateToken (s : Str) : Option PyDate :=
  let pieces :=
    match splitOnChar '/' s with
    | [a, b, c] => some [a, b, c]
    | _ =>
      match splitOnChar '-' s with
      | [a, b, c] => some [a, b, c]
      | _ => none
  match pieces with
  | some [a, b, c] =>
    match decPiece? a, decPiece? b, decPiece? c with
    | some y, some m, some d =>
      let y := widenYear y
      if 1 ≤ m && m ≤ 12 && 1 ≤ d && d ≤ daysInMonth y m then some ⟨y, m, d⟩
      else none
    | _, _, _ => none
  | _ => none

/-- Numeric UTC-offset suffix of a time token, e.g. +09:00, rendered back as
the offset text that stands for the parsed tzinfo. -/
def parseTzTail (s : Str) : Option Str :=
  match splitOnChar ':' s with
  | [h, m] =>
    match decPiece? h, decPiece? m with
    | some hh, some mm => if hh < 24 && mm < 60 then some s else none
    | _, _ => none
  | _ => none

/-- Time token h:m or h:m:s with an optional numeric offset suffix. -/
def parseTimeToken (s : Str) : Option (Nat × Nat × Nat × Option Str) :=
  let (core, tz) : Str × Option (Char × Str) :=
    match s.findIdx? (fun c => c = '+') with
    | some i => (s.take i, some ('+', s.drop (i + 1)))
    | none =>
      match s.findIdx? (fun c => c = '-') with
      | some i => (s.take i, some ('-', s.drop (i + 1)))
      | none => (s, none)
  let tzName? : Option (Option Str) :=
    match tz with
    | none => some none
    | some (sgn, rest) =>
      match parseTzTail rest with
      | some t => some (some (sgn :: t))
      | none => none
  match tzName? with
  | none => none
  | some tzv =>
    match splitOnChar ':' core with
    | [h, m] =>
      match decPiece? h, decPiece? m with
      | some hh, some mm => if hh < 24 && mm < 60 then some (hh, mm, 0, tzv) else none
      | _, _ => none
    | [h, m, sOnly] =>
      match decPiece? h, decPiece? m, decPiece? sOnly with
      | some hh, some mm, some ss =>
        if hh < 24 && mm < 60 && ss < 60 then some (hh, mm, ss, tzv) else none
      | _, _, _ => none
    | _ => none

/-- Splits on ASCII spaces, dropping empty words. -/
def wordsOf (s : Str) : List Str :=
  (splitOnChar ' ' s).filter (fun w => !w.isEmpty)

/-- Modelled from the external dependency dateutil.parser.parse(text,
yearfirst=True, dayfirst=False), restricted to the numeric slash- or
hyphen-separated year-first forms the importer feeds it: a date token with an
optional time token.  Inputs outside this grammar yield none, standing for the
ValueError the importer turns into None. -/
def dateutilCore (s : Str) : Option PyDateTime :=
  match wordsOf s with
  | [d] =>
    match parseDateToken d with
    | some dd => some ⟨dd.year, dd.month, dd.day, 0, 0, 0, none⟩
    | none => none
  | [d, t] =>
    match parseDateToken d, parseTimeToken t with
    | some dd, some (hh, mm, ss, tzv) => some ⟨dd.year, dd.month, dd.day, hh, mm, ss, tzv⟩
    | _, _ => none
  | _ => none

/-- dateutil tokenisation ignores surrounding whitespace. -/
def dateutilParse (s : Str) : Option PyDateTime := dateutilCore (pyStrip s)

/-- Ideographic full-width space. -/
def fwSpace : Char := Char.ofNat 0x3000

/-- Mirrors text.replace of the full-width space by an ASCII space. -/
def spaceFold (s : Str) : Str := s.map (fun c => if c = fwSpace then ' ' else c)

/-- Native Japanese date-part separator glyphs. -/
def hasDateGlyph (s : Str) : Bool := s.any (fun c => c = '年' || c = '月' || c = '日')

/-- Mirrors the chained replacements: the year and month glyphs become a
slash, the day glyph is dropped. -/
def glyphFold (s : Str) : Str :=
  s.filterMap (fun c =>
    if c = '日' then none
    else if c = '年' || c = '月' then some '/'
    else some c)

/-- Name of the fixed default time zone attached to naive results. -/
def jstName : Str := "Asia/Tokyo".data

/-- Mirrors parse_datetime_value (identical in both source files): normalize
the cell, treat empty and the literal zero as missing, fold the full-width
space, fold the native date glyphs to slashes when present, delegate to the
dateutil model, and attach the default time zone to a naive result. -/
def parseDatetimeValue (value : Option Str) : Option PyDateTime :=
  let text := normalizeCellValue value
  if text = [] || text = ['0'] then none
  else
    let n1 := spaceFold text
    let n2 := if hasDateGlyph n1 then glyphFold n1 else n1
    match dateutilParse n2 with
    | none => none
    | some dt => some (if dt.tzName = none then { dt with tzName := some jstName } else dt)

/-- Decimal digit characters of a number, most significant first. -/
def natDigits (n : Nat) : Str :=
  (Nat.toDigits 10 n)

/-- Zero-padded decimal rendering. -/
def padNum (width n : Nat) : Str :=
  let ds := natDigits n
  List.replicate (width - ds.length) '0' ++ ds

/-- Mirrors strftime of a timestamp with the year-month-day format used by the
derived key. -/
def fmtYYYYMMDD (d : PyDateTime) : Str :=
  padNum 4 d.year ++ padNum 2 d.month ++ padNum 2 d.day

/-- Decimal rendering of an integer, as Python str(int). -/
def intToStr (n : Int) : Str :=
  if n < 0 then '-' :: natDigits n.natAbs else natDigits n.natAbs

/-- Exception classes raised by the importer core.  Only the class matters to
the orchestrator, which catches ValueError and re-raises everything else. -/
inductive PyError where
  | valueError (msg : String)
  | keyError (msg : String)
  | typeError (msg : String)
  | attrError (msg : String)
  | otherError (msg : String)
  deriving DecidableEq, Repr

/-- Association-list lookup, modelling Python dict indexing / dict.get. -/
def alookup {κ α : Type} [DecidableEq κ] : List (κ × α) → κ → Option α
  | [], _ => none
  | (k, v) :: rest, key => if k = key then some v else alookup rest key

/-- Association-list store, modelling Python dict item assignment: an existing
key keeps its position, a new key is appended, as dict insertion order does. -/
def aupdate {κ α : Type} [DecidableEq κ] : List (κ × α) → κ → α → List (κ × α)
  | [], k, v => [(k, v)]
  | (k0, v0) :: rest, k, v =>
    if k0 = k then (k, v) :: rest else (k0, v0) :: aupdate rest k v

/-- Mirrors d.update(other): every entry of the second dict stored into the
first, in order. -/
def dictMerge {κ α : Type} [DecidableEq κ] (d other : List (κ × α)) : List (κ × α) :=
  other.foldl (fun acc p => aupdate acc p.1 p.2) d

/-- Mirrors d.setdefault(k, v): insert only when the key is absent. -/
def setdefaultL {κ α : Type} [DecidableEq κ] (d : List (κ × α)) (k : κ) (v : α) :
    List (κ × α) :=
  if (alookup d k).isSome then d else d ++ [(k, v)]

/-- Typed output value of one destination column. -/
inductive Value where
  | null
  | str (s : Str)
  | int (n : Int)
  | date (d : PyDate)
  | dt (d : PyDateTime)
  deriving DecidableEq, Repr

/-- Database effects of one facility import, in order of issue. -/
inductive DbOp where
  | del (table : Str) (facilityCode : Int)
  | ins (table : Str) (columns : List Str) (rows : List (List Value))
  | commit
  deriving DecidableEq, Repr

/-- A fetched data row: normalized header name to raw cell text. -/
abbrev Row := List (Str × Str)

/-- Cell of a row by header, as row.get(header): absent headers give None. -/
def rowGet (row : Row) (h : Str) : Option Str := alookup row h

/-- Section names of a mapping definition, in their fixed order. -/
def secString : Str := "string".data
def secText : Str := "text".data
def secInteger : Str := "integer".data
def secDate : Str := "date".data
def secDatetime : Str := "datetime".data

/-- Name of the fallback catalog entry. -/
def defaultName : Str := "default".data

/-- Destination-column names consulted by the derived key. -/
def roomKey : Str := "room_number".data
def startKey : Str := "start_date".data

/-- Destination-column name of the one clamped evaluation score. -/
def compEvalKey : Str := "comprehensive_evaluation".data

/-- Generated column names, in their fixed order. -/
def fcKey : Str := "facility_code".data
def ekKey : Str := "enquete_key".data
def idKey : Str := "import_date".data
def generatedFields : List Str := [fcKey, ekKey, idKey]

/-- Message of the KeyError raised for an unknown mapping name. -/
def keyErrMsg (n : Str) : String :=
  "Mapping '" ++ String.mk n ++ "' is not defined in the configuration."

/-- Message of the TypeError raised for a bad mapping reference. -/
def refTypeMsg : String :=
  "Mapping reference must be either a string key or a dictionary."

/-- Message of the ValueError raised for a missing facility code. -/
def fcReqMsg : String :=
  "'facility_code' is required in each facility configuration."

/-- Mirrors normalize_optional_string on an optional string value. -/
def normalizeOptionalStr : Option Str → Option Str
  | none => none
  | some s => let n := pyStrip s; if n.isEmpty then none else some n

/-- Python truthiness of an optional string. -/
def truthyOpt : Option Str → Bool
  | none => false
  | some s => !s.isEmpty

/-- Mirrors the Python expression a or b on optional strings: the first
operand wins unless it is None or empty. -/
def orFalsyStr (a b : Option Str) : Option Str :=
  match a with
  | some s => if s.isEmpty then b else some s
  | none => b

/-- Mirrors replace_invalid_shiftjis_chars (identical in both source files).
The encodable set is modelled as the repertoire actually reachable from
worksheet text: ASCII, the kana and punctuation blocks, and the main CJK
block; every other character becomes a question mark, character by
character. -/
def shiftJisEncodable (c : Char) : Bool :=
  c.toNat ≤ 0x7f ||
  (0x3000 ≤ c.toNat && c.toNat ≤ 0x30ff) ||
  (0xff01 ≤ c.toNat && c.toNat ≤ 0xff9f) ||
  (0x4e00 ≤ c.toNat && c.toNat ≤ 0x9fff)

/-- Character-wise replacement of unencodable characters. -/
def replaceInvalidShiftJisChars (s : Str) : Str :=
  s.map (fun c => if shiftJisEncodable c then c else '?')

end Enq

namespace EI

/-
  Shallow embedding of src/enquetes_importer.py.
-/

open Enq

/-- Raw value of one section entry of an unresolved mapping definition: a
dictionary of destination column to source header, None, or another scalar. -/
inductive RawVal where
  | dict (entries : List (Str × Str))
  | null
  | scalar (s : Str)
  deriving DecidableEq, Repr

/-- An unresolved mapping definition, as it sits in the configuration. -/
abbrev RawMapping := List (Str × RawVal)

/-- Python truthiness of a raw section value. -/
def RawVal.falsy : RawVal → Bool
  | .dict es => es.isEmpty
  | .null => true
  | .scalar s => s.isEmpty

/-- A resolved mapping definition: the five typed sections, each an ordered
dictionary of destination column to normalized source header. -/
structure NormMapping where
  stringSec : List (Str × Str)
  textSec : List (Str × Str)
  integerSec : List (Str × Str)
  dateSec : List (Str × Str)
  datetimeSec : List (Str × Str)
  deriving DecidableEq, Repr

/-- Mirrors one section step of normalize_mapping: the absent or falsy value
becomes the empty dictionary, a present non-dictionary raises TypeError, and
header names are normalized. -/
def normalizeSection (m : RawMapping) (name : Str) : Except PyError (List (Str × Str)) :=
  let v := (alookup m name).getD RawVal.null
  if v.falsy then .ok []
  else
    match v with
    | .dict es => .ok (es.map (fun p => (p.1, pyStrip p.2)))
    | _ => .error (.typeError ("Mapping section '" ++ String.mk name ++ "' must be a dictionary."))

/-- Mirrors normalize_mapping of enquetes_importer: the five fixed sections
are normalized in order. -/
def normalizeMapping (m : RawMapping) : Except PyError NormMapping := do
  let s ← normalizeSection m secString
  let t ← normalizeSection m secText
  let i ← normalizeSection m secInteger
  let d ← normalizeSection m secDate
  let dt ← normalizeSection m secDatetime
  .ok ⟨s, t, i, d, dt⟩

/-- A mapping reference as it appears in configuration: absent / None, a
name, an inline definition, or a value of any other type. -/
inductive MappingRef where
  | noneRef
  | nameRef (s : Str)
  | inlineRef (m : RawMapping)
  | otherRef
  deriving Repr

/-- Mirrors sanitize_mapping_reference: strip a string reference; an empty
result stands for no reference. -/
def sanitizeRef : MappingRef → MappingRef
  | .nameRef s => let t := pyStrip s; if t.isEmpty then .noneRef else .nameRef t
  | r => r

/-- Checks for the absent reference. -/
def MappingRef.isNoneRef : MappingRef → Bool
  | .noneRef => true
  | _ => false

/-- Mirrors resolve_mapping of enquetes_importer: a missing reference falls
back to the default name; a name is looked up in the merged catalog, and a
missing name raises KeyError; an inline definition is normalized directly;
any other reference raises TypeError.  The deepcopy of the source is the
identity in this pure model (the heap model below covers the frame claim). -/
def resolveMapping (mappings : List (Str × RawMapping)) (reference : MappingRef) :
    Except PyError NormMapping :=
  let reference := match reference with | .noneRef => MappingRef.nameRef defaultName | r => r
  match reference with
  | .nameRef n =>
    match alookup mappings n with
    | none => .error (.keyError (keyErrMsg n))
    | some m => normalizeMapping m
  | .inlineRef m => normalizeMapping m
  | _ => .error (.typeError refTypeMsg)

/-- Mirrors build_ordered_keys: destination columns of the five sections in
their fixed order, then the three generated columns. -/
def buildOrderedKeys (m : NormMapping) : List Str :=
  (m.stringSec.map Prod.fst) ++ (m.textSec.map Prod.fst) ++ (m.integerSec.map Prod.fst) ++
    (m.dateSec.map Prod.fst) ++ (m.datetimeSec.map Prod.fst) ++ generatedFields

/-- Raw value of one per-field conversion table in configuration. -/
inductive ConvVal where
  | table (entries : List (Str × Str))
  | null
  | scalar (s : Str)
  deriving DecidableEq, Repr

/-- Mirrors normalize_value_conversions: None entries are skipped, non-dict
entries raise TypeError, source values are normalized. -/
def normalizeValueConversions (conversions : Option (List (Str × ConvVal))) :
    Except PyError (List (Str × List (Str × Str))) :=
  match conversions with
  | none => .ok []
  | some cs =>
    if cs.isEmpty then .ok []
    else
      cs.foldlM (fun acc p =>
        match p.2 with
        | .null => .ok acc
        | .table t =>
          .ok (aupdate acc p.1 (t.map (fun q => (pyStrip q.1, q.2))))
        | .scalar _ =>
          .error (.typeError ("Value conversion for '" ++ String.mk p.1 ++ "' must be a dictionary."))) []

/-- Mirrors apply_value_conversion: the declared table for this destination
column replaces an exact normalized match, otherwise the value passes through
unchanged. -/
def applyValueConversion (value : Option Str) (dbKey : Str)
    (conversions : List (Str × List (Str × Str))) : Option Str :=
  if conversions.isEmpty then value
  else
    match alookup conversions dbKey with
    | none => value
    | some tbl =>
      if tbl.isEmpty then value
      else
        let n := normalizeCellValue value
        if n.isEmpty then value
        else
          match alookup tbl n with
          | none => value
          | some target => some target

/-- Built-in rating vocabulary, first table of ENGLISH_TO_JAPANESE_CONVERSIONS. -/
def engRatings : List (Str × Str) :=
  [("Very Good".data, "非常に良い".data),
   ("Good".data, "良い".data),
   ("Average".data, "普通".data),
   ("Poor".data, "悪い".data),
   ("Very Poor".data, "非常に悪い".data)]

/-- Built-in yes-no vocabulary, second table of ENGLISH_TO_JAPANESE_CONVERSIONS. -/
def engYesNo : List (Str × Str) :=
  [("Yes".data, "はい".data), ("No".data, "いいえ".data)]

/-- Mirrors convert_english_to_japanese: the first table holding the value
wins, otherwise the value passes through. -/
def convertEnglishToJapanese (v : Str) : Str :=
  match alookup engRatings v with
  | some r => r
  | none =>
    match alookup engYesNo v with
    | some r => r
    | none => v

/-- Mirrors normalize_comprehensive_evaluation: parse as float, clamp a
non-positive result to zero and a result of at least one hundred to one
hundred, truncate anything between. -/
def normalizeComprehensiveEvaluation (value : Str) : Option Int :=
  match pyFloat value with
  | none => none
  | some q =>
    if q.num ≤ 0 then some 0
    else if 100 * (q.den : Int) ≤ q.num then some 100
    else some q.trunc

/-- One string-section field of make_record_from_row. -/
def stringFieldValue (row : Row) (conversions : List (Str × List (Str × Str)))
    (dbKey csvKey : Str) : Value :=
  let v0 := applyValueConversion (rowGet row csvKey) dbKey conversions
  let v1 := normalizeCellValue v0
  let v2 := if v1.isEmpty then v1 else convertEnglishToJapanese v1
  if v2.isEmpty then .null else .str (h2z v2)

/-- One text-section field of make_record_from_row. -/
def textFieldValue (row : Row) (conversions : List (Str × List (Str × Str)))
    (dbKey csvKey : Str) : Value :=
  let v0 := applyValueConversion (rowGet row csvKey) dbKey conversions
  let v1 := normalizeCellValue v0
  let v2 := replaceInvalidShiftJisChars v1
  if v2.isEmpty then .null else .str (h2z v2)

/-- One integer-section field of make_record_from_row: only the designated
evaluation column goes through the clamped float parse; every other integer
column parses strictly decimal after width folding, yielding None otherwise. -/
def integerFieldValue (row : Row) (conversions : List (Str × List (Str × Str)))
    (dbKey csvKey : Str) : Value :=
  let v0 := applyValueConversion (rowGet row csvKey) dbKey conversions
  let v1 := normalizeCellValue v0
  if v1.isEmpty then .null
  else
    let nv := z2h v1
    if dbKey = compEvalKey then
      match normalizeComprehensiveEvaluation nv with
      | some n => .int n
      | none => .null
    else if pyIsDecimal nv then .int (decimalVal nv) else .null

/-- One date-section field of make_record_from_row. -/
def dateFieldValue (row : Row) (conversions : List (Str × List (Str × Str)))
    (dbKey csvKey : Str) : Value :=
  let v0 := applyValueConversion (rowGet row csvKey) dbKey conversions
  let v1 := normalizeCellValue v0
  match parseDatetimeValue (some v1) with
  | some p => .date p.dateOf
  | none => .null

/-- One datetime-section field of make_record_from_row. -/
def datetimeFieldValue (row : Row) (conversions : List (Str × List (Str × Str)))
    (dbKey csvKey : Str) : Value :=
  let v0 := applyValueConversion (rowGet row csvKey) dbKey conversions
  let v1 := normalizeCellValue v0
  match parseDatetimeValue (some v1) with
  | some p => .dt p
  | none => .null

/-- Mirrors make_record_from_row of enquetes_importer: the five sections are
written into the record dict in order, later sections overwriting an earlier
column of the same name. -/
def makeRecordFromRow (row : Row) (m : NormMapping)
    (conversions : List (Str × List (Str × Str))) : List (Str × Value) :=
  let r0 := m.stringSec.foldl
    (fun acc p => aupdate acc p.1 (stringFieldValue row conversions p.1 p.2)) []
  let r1 := m.textSec.foldl
    (fun acc p => aupdate acc p.1 (textFieldValue row conversions p.1 p.2)) r0
  let r2 := m.integerSec.foldl
    (fun acc p => aupdate acc p.1 (integerFieldValue row conversions p.1 p.2)) r1
  let r3 := m.dateSec.foldl
    (fun acc p => aupdate acc p.1 (dateFieldValue row conversions p.1 p.2)) r2
  m.datetimeSec.foldl
    (fun acc p => aupdate acc p.1 (datetimeFieldValue row conversions p.1 p.2)) r3

/-- Mirrors build_enquete_key of enquetes_importer: the room header prefers
the string section and falls back to the integer section, the stay-start
header prefers the date section and falls back to the datetime section; a
missing header, a room value that is not purely numeric after width folding,
or an unparsable date yield None; the tie-break is the facility code, and the
configured literal affixes wrap the key. -/
def buildEnqueteKey (row : Row) (m : NormMapping) (facilityCode : Int)
    (pre suf : Option Str) (conversions : List (Str × List (Str × Str))) : Option Str :=
  let roomHeader := orFalsyStr (alookup m.stringSec roomKey) (alookup m.integerSec roomKey)
  let startHeader := orFalsyStr (alookup m.dateSec startKey) (alookup m.datetimeSec startKey)
  if !truthyOpt roomHeader || !truthyOpt startHeader then none
  else
    let rh := roomHeader.getD []
    let sh := startHeader.getD []
    let roomRaw := applyValueConversion (rowGet row rh) roomKey conversions
    let roomValue := z2h (normalizeCellValue roomRaw)
    if !pyIsDecimal roomValue then none
    else
      let startDateValue := normalizeCellValue (rowGet row sh)
      match parseDatetimeValue (some startDateValue) with
      | none => none
      | some parsed =>
        let baseKey := roomValue ++ ('-' :: fmtYYYYMMDD parsed) ++ ('-' :: intToStr facilityCode)
        let baseKey := match pre with
          | some p => if p.isEmpty then baseKey else p ++ baseKey
          | none => baseKey
        match suf with
        | some sfx => some (if sfx.isEmpty then baseKey else baseKey ++ ('-' :: sfx))
        | none => some baseKey

/-- Mirrors build_generated_fields of enquetes_importer; the build timestamp
is a parameter standing for datetime.now(). -/
def buildGeneratedFields (row : Row) (m : NormMapping) (facilityCode : Int)
    (pre suf : Option Str) (conversions : List (Str × List (Str × Str)))
    (now : PyDateTime) : List (Str × Value) :=
  [(fcKey, .int facilityCode),
   (ekKey, match buildEnqueteKey row m facilityCode pre suf conversions with
           | some k => .str k
           | none => .null),
   (idKey, .dt now)]

/-- Mirrors normalize_language_key: normalize as an optional string, then
case-fold (modelled as lower-casing, which agrees with casefold on every
language key met here). -/
def normalizeLanguageKey (v : Option Str) : Option Str :=
  (normalizeOptionalStr v).map (fun s => s.map Char.toLower)

/-- Mirrors build_language_mappings: one resolved mapping per declared
language variant (keys normalized, the None key skipped), plus a default
entry synthesized from the plain mapping reference when no explicit default
variant was declared and a reference exists. -/
def buildLanguageMappings (available : List (Str × RawMapping)) (reference : MappingRef)
    (languageMappings : List (Str × MappingRef)) :
    Except PyError (List (Str × NormMapping)) := do
  let resolved ← languageMappings.foldlM (fun acc p => do
      match normalizeLanguageKey (some p.1) with
      | none => pure acc
      | some k => do
        let m ← resolveMapping available p.2
        pure (aupdate acc k m)) ([] : List (Str × NormMapping))
  if (alookup resolved defaultName).isSome || reference.isNoneRef then
    pure resolved
  else do
    let m ← resolveMapping available reference
    pure (aupdate resolved defaultName m)

/-- Per-location configuration surface read by import_facility of
enquetes_importer.  Absent keys are None / empty, as dict.get yields. -/
structure FacilityConfig where
  facilityCode : Option Int
  mapping : MappingRef
  mappings : List (Str × RawMapping)
  languageColumn : Option Str
  languageMappings : List (Str × MappingRef)
  valueConversions : Option (List (Str × ConvVal))
  keyPre : Option Str
  keySuf : Option Str
  deleteFlag : Option Bool
  table : Option Str

/-- Per-organization configuration surface read by import_facility. -/
structure CorpConfig where
  mapping : MappingRef
  mappings : List (Str × RawMapping)

/-- One buffered insert row: the record of one fetched row serialized along
the ordered key list, record.get yielding None for an absent column. -/
def bufferRowOf (row : Row) (mapping : NormMapping)
    (conversions : List (Str × List (Str × Str))) (facilityCode : Int)
    (pre suf : Option Str) (now : PyDateTime) (orderedKeys : List Str) : List Value :=
  let record := makeRecordFromRow row mapping conversions
  let record := dictMerge record
    (buildGeneratedFields row mapping facilityCode pre suf conversions now)
  orderedKeys.map (fun k => (alookup record k).getD Value.null)

/-- Message of the ValueError raised when a language column has no mappings. -/
def langReqMsg : String :=
  "language_column is set but no language_mappings or default mapping is defined."

/-- Message of the ValueError raised when no language mapping resolves. -/
def langEmptyMsg : String :=
  "language_mappings did not resolve to any valid mappings."

/-- Mirrors import_facility of enquetes_importer, with the two external
collaborators at the boundary: the fetched rows are a parameter (standing for
open_worksheet plus read_records) and database work is returned as the list
of issued operations.  The build timestamp stands for datetime.now(). -/
def facilityImport (cfg : FacilityConfig) (corp : CorpConfig)
    (baseMappings : List (Str × RawMapping)) (tableName : Str)
    (records : List Row) (now : PyDateTime) : Except PyError (List DbOp) := do
  match cfg.facilityCode with
  | none => throw (.valueError fcReqMsg)
  | some facilityCode => do
    let available := dictMerge (dictMerge baseMappings corp.mappings) cfg.mappings
    let ref0 := sanitizeRef cfg.mapping
    let reference := if ref0.isNoneRef then sanitizeRef corp.mapping else ref0
    let languageColumn := normalizeOptionalStr cfg.languageColumn
    let languageCfg := cfg.languageMappings
    let conversions ← normalizeValueConversions cfg.valueConversions
    let (resolvedLang, mappingForSchema) ←
      match languageColumn with
      | some _ => do
        if languageCfg.isEmpty && reference.isNoneRef then
          throw (.valueError langReqMsg)
        let resolved ← buildLanguageMappings available reference languageCfg
        match resolved with
        | [] => throw (.valueError langEmptyMsg)
        | (k0, m0) :: rest =>
          pure ((k0, m0) :: rest, (alookup ((k0, m0) :: rest) defaultName).getD m0)
      | none => do
        let m ← resolveMapping available reference
        pure ([(defaultName, m)], m)
    let orderedKeys := buildOrderedKeys mappingForSchema
    let facilityTable := (normalizeOptionalStr cfg.table).getD tableName
    let shouldDelete := cfg.deleteFlag.getD true
    let buffer := records.filterMap (fun row =>
      match languageColumn with
      | some lc =>
        let lv := normalizeLanguageKey (rowGet row lc)
        let mapping? :=
          (match lv with
           | some k => alookup resolvedLang k
           | none => none).orElse (fun _ => alookup resolvedLang defaultName)
        match mapping? with
        | none => none
        | some mapping =>
          some (bufferRowOf row mapping conversions facilityCode cfg.keyPre cfg.keySuf now orderedKeys)
      | none =>
        some (bufferRowOf row mappingForSchema conversions facilityCode cfg.keyPre cfg.keySuf now orderedKeys))
    let ops1 := if shouldDelete then [DbOp.del facilityTable facilityCode] else []
    let ops2 := if buffer.isEmpty then [DbOp.commit]
                else [DbOp.ins facilityTable orderedKeys buffer, DbOp.commit]
    pure (ops1 ++ ops2)

/-- One facility of the orchestrator loop: its name, its configuration and
the rows its worksheet fetch returns. -/
structure FacilityRun where
  name : Str
  cfg : FacilityConfig
  records : List Row

/-- Outcome of the per-organization facility loop of main: either every
selected facility was processed (committed work plus skipped names), or an
uncaught error aborted the run after rolling the failing facility back. -/
inductive RunOutcome where
  | completed (committed : List (Str × List DbOp)) (skipped : List Str)
  | aborted (committed : List (Str × List DbOp)) (skipped : List Str)
      (failing : Str) (err : PyError)
  deriving DecidableEq, Repr

/-- Mirrors the facility loop of main: each facility runs in its own
transaction; a ValueError rolls the facility back, is logged and skipped, and
the loop continues; any other exception rolls the facility back and is
re-raised, aborting the whole run. -/
def processFacilities (corp : CorpConfig) (baseMappings : List (Str × RawMapping))
    (tableName : Str) (now : PyDateTime) :
    List FacilityRun → List (Str × List DbOp) → List Str → RunOutcome
  | [], committed, skipped => .completed committed.reverse skipped.reverse
  | f :: rest, committed, skipped =>
    match facilityImport f.cfg corp baseMappings tableName f.records now with
    | .ok ops =>
      processFacilities corp baseMappings tableName now rest ((f.name, ops) :: committed) skipped
    | .error (.valueError _) =>
      processFacilities corp baseMappings tableName now rest committed (f.name :: skipped)
    | .error e => .aborted committed.reverse skipped.reverse f.name e

end EI

namespace GS

/-
  Shallow embedding of src/google_spreadsheet.py.
-/

open Enq

/-- Configuration values of the google_spreadsheet revision, whose mapping
machinery inspects the dynamic type of configuration entries: strings,
integers, None, dictionaries and lists. -/
inductive GVal where
  | str (s : Str)
  | intV (n : Int)
  | null
  | dict (entries : List (Str × GVal))
  | listV (xs : List GVal)

/-- Python truthiness of a configuration value. -/
def gFalsy : GVal → Bool
  | .str s => s.isEmpty
  | .intV n => n == 0
  | .null => true
  | .dict es => es.isEmpty
  | .listV xs => xs.isEmpty

/-- Checks for the None value. -/
def GVal.isNull : GVal → Bool
  | .null => true
  | _ => false

/-- Textual form of a value, as Python str().  The dictionary and list forms
are never fed to str() by any configuration the importer accepts. -/
def gStrRepr : GVal → Str
  | .str s => s
  | .intV n => intToStr n
  | .null => "None".data
  | .dict _ => "\x7b...\x7d".data
  | .listV _ => "[...]".data

/-- Mirrors normalize_cell_value / normalize_header_name on a configuration
value: None becomes empty, everything else is stringified and stripped. -/
def gNormCell : GVal → Str
  | .null => []
  | v => pyStrip (gStrRepr v)

/-- Mirrors normalize_optional_string on a configuration value. -/
def gNormOptStr : GVal → Option Str
  | .null => none
  | v => let n := pyStrip (gStrRepr v); if n.isEmpty then none else some n

/-- Mirrors sanitize_mapping_reference on a configuration value. -/
def gSanitizeRef : GVal → GVal
  | .str s => let t := pyStrip s; if t.isEmpty then .null else .str t
  | v => v

/-- FIELD_SECTION_PREFIXES, in tuple order. -/
def fieldSections : List Str := [secString, secText, secInteger, secDate, secDatetime]

/-- CONVERSION_PREFIX of the source. -/
def conversionHead : Str := "conversion".data

/-- Mirrors is_section_key: the key starts with one of the section names
(equality is subsumed by the start check). -/
def isSectionKey (k : Str) : Bool := fieldSections.any (fun p => p.isPrefixOf k)

/-- Mirrors is_conversion_key. -/
def isConversionKey (k : Str) : Bool := conversionHead.isPrefixOf k

/-- Mirrors is_mapping_definition_dict: a dictionary all of whose keys are
section or conversion keys (an empty dictionary qualifies). -/
def isMappingDefinitionDict : GVal → Bool
  | .dict entries => entries.all (fun p => isSectionKey p.1 || isConversionKey p.1)
  | _ => false

/-- Message of the AttributeError raised when .items() or .setdefault is
called on a non-dictionary configuration value. -/
def itemsAttrMsg : String := "object has no attribute 'items'"
def setdefaultAttrMsg : String := "object has no attribute 'setdefault'"

/-- Mirrors merge_mapping_catalog: a falsy catalog is ignored, a bare mapping
definition becomes the default entry of the target, and any other dictionary
is merged entry by entry; a non-dictionary raises AttributeError. -/
def mergeMappingCatalog (target : List (Str × GVal)) (catalog : GVal) :
    Except PyError (List (Str × GVal)) :=
  if gFalsy catalog then .ok target
  else if isMappingDefinitionDict catalog then .ok (aupdate target defaultName catalog)
  else
    match catalog with
    | .dict entries => .ok (entries.foldl (fun acc p => aupdate acc p.1 p.2) target)
    | _ => .error (.attrError itemsAttrMsg)

/-- FieldSpec of the source: normalized source header, shared conversion
table, and clamp bounds. -/
structure FieldSpec where
  csvHeader : Str
  conversion : Option (List (Str × Str))
  clampRange : Option (Int × Int)
  deriving DecidableEq, Repr

/-- A resolved mapping of the google_spreadsheet revision: five sections of
destination column to FieldSpec. -/
structure NormMappingG where
  stringSec : List (Str × FieldSpec)
  textSec : List (Str × FieldSpec)
  integerSec : List (Str × FieldSpec)
  dateSec : List (Str × FieldSpec)
  datetimeSec : List (Str × FieldSpec)
  deriving DecidableEq, Repr

/-- The empty resolved mapping, the initial normalized dictionary. -/
def emptyNormG : NormMappingG := ⟨[], [], [], [], []⟩

/-- Mirrors the next(...) expression of normalize_mapping: the first section
name, in tuple order, that the key starts with.  Note that a key starting
with the datetime name matches the date name first, so datetime sections land
in the date section, exactly as in the source. -/
def firstSectionOf (k : Str) : Option Str := fieldSections.find? (fun p => p.isPrefixOf k)

/-- Store of one field under its base section. -/
def NormMappingG.updSection (nm : NormMappingG) (base dbKey : Str) (fs : FieldSpec) :
    NormMappingG :=
  if base = secString then { nm with stringSec := aupdate nm.stringSec dbKey fs }
  else if base = secText then { nm with textSec := aupdate nm.textSec dbKey fs }
  else if base = secInteger then { nm with integerSec := aupdate nm.integerSec dbKey fs }
  else if base = secDate then { nm with dateSec := aupdate nm.dateSec dbKey fs }
  else if base = secDatetime then { nm with datetimeSec := aupdate nm.datetimeSec dbKey fs }
  else nm

/-- Mirrors normalize_mapping of google_spreadsheet: a first pass collects the
conversion entries by suffix (None entries become empty tables, non-dict
entries raise TypeError); a second pass walks the section keys, attaching the
suffix-matched conversion table to every field and the fixed clamp to the
integer section of suffix 2; a non-dictionary mapping raises
AttributeError. -/
def normalizeMappingG (mapping : GVal) : Except PyError NormMappingG := do
  match mapping with
  | .dict entries => do
    let conversions ← entries.foldlM (fun (acc : List (Str × List (Str × Str))) p => do
        if !isConversionKey p.1 then pure acc
        else
          match p.2 with
          | .null => pure (aupdate acc (p.1.drop conversionHead.length) [])
          | .dict conv =>
            pure (aupdate acc (p.1.drop conversionHead.length)
              (conv.map (fun q => (pyStrip q.1, gNormCell q.2))))
          | _ =>
            throw (.typeError ("Conversion '" ++ String.mk p.1 ++ "' must be a dictionary.")))
      []
    entries.foldlM (fun (acc : NormMappingG) p => do
        if !isSectionKey p.1 then pure acc
        else
          let v := match p.2 with | .null => GVal.dict [] | v => v
          match v with
          | .dict fields =>
            match firstSectionOf p.1 with
            | none => pure acc
            | some base =>
              let suffix := p.1.drop base.length
              let conversion := alookup conversions suffix
              let clampV : Option (Int × Int) :=
                if base = secInteger && suffix = "2".data then some (0, 100) else none
              pure (fields.foldl (fun acc2 q =>
                acc2.updSection base q.1 ⟨gNormCell q.2, conversion, clampV⟩) acc)
          | _ =>
            throw (.typeError ("Mapping section '" ++ String.mk p.1 ++ "' must be a dictionary.")))
      emptyNormG
  | _ => throw (.attrError itemsAttrMsg)

/-- Mirrors resolve_mapping of google_spreadsheet: name lookup or inline
definition as in the other revision, then every conversion entry found at the
catalog root is merged into the mapping with setdefault before
normalization.  The deepcopies are the identity in this pure model; the heap
model below covers the frame claim. -/
def resolveMappingG (mappings : List (Str × GVal)) (reference : GVal) :
    Except PyError NormMappingG := do
  let reference := match reference with | .null => GVal.str defaultName | r => r
  let mapping ← match reference with
    | .str n =>
      match alookup mappings n with
      | none => throw (.keyError (keyErrMsg n))
      | some m => pure m
    | .dict es => pure (GVal.dict es)
    | _ => throw (.typeError refTypeMsg)
  let convEntries := mappings.filter (fun p => isConversionKey p.1)
  let mapping ← match mapping with
    | .dict es =>
      pure (GVal.dict (convEntries.foldl (fun acc p => setdefaultL acc p.1 p.2) es))
    | m =>
      if convEntries.isEmpty then pure m else throw (.attrError setdefaultAttrMsg)
  normalizeMappingG mapping

/-- Mirrors build_ordered_keys of google_spreadsheet. -/
def buildOrderedKeysG (m : NormMappingG) : List Str :=
  (m.stringSec.map Prod.fst) ++ (m.textSec.map Prod.fst) ++ (m.integerSec.map Prod.fst) ++
    (m.dateSec.map Prod.fst) ++ (m.datetimeSec.map Prod.fst) ++ generatedFields

/-- Mirrors apply_conversion: an empty value or an absent or empty table
passes the value through; otherwise an exact table match replaces it. -/
def applyConversion (value : Str) (conversion : Option (List (Str × Str))) : Str :=
  match conversion with
  | none => value
  | some tbl =>
    if value.isEmpty || tbl.isEmpty then value
    else (alookup tbl value).getD value

/-- Mirrors parse_integer_cell: empty yields None; the value is width-folded
and stripped of comma separators; an all-decimal value parses directly,
otherwise the float fallback truncates; a non-numeric value yields None; the
declared clamp bounds are applied to the parsed value. -/
def parseIntegerCell (value : Str) (clampRange : Option (Int × Int)) : Option Int :=
  if value.isEmpty then none
  else
    let normalized := (z2h value).filter (fun c => c != ',')
    let parsed? : Option Int :=
      if pyIsDecimal normalized then some (decimalVal normalized)
      else
        match pyFloat normalized with
        | some q => some q.trunc
        | none => none
    match parsed? with
    | none => none
    | some parsed =>
      match clampRange with
      | none => some parsed
      | some (mn, mx) => some (min (max parsed mn) mx)

/-- One string-section field of make_record_from_row. -/
def stringFieldValueG (row : Row) (f : FieldSpec) : Value :=
  let v := normalizeCellValue (rowGet row f.csvHeader)
  let v := applyConversion v f.conversion
  if v.isEmpty then .null else .str (h2z v)

/-- One text-section field of make_record_from_row. -/
def textFieldValueG (row : Row) (f : FieldSpec) : Value :=
  let v := normalizeCellValue (rowGet row f.csvHeader)
  let v := applyConversion v f.conversion
  let v := replaceInvalidShiftJisChars v
  if v.isEmpty then .null else .str (h2z v)

/-- One integer-section field of make_record_from_row. -/
def integerFieldValueG (row : Row) (f : FieldSpec) : Value :=
  let v := normalizeCellValue (rowGet row f.csvHeader)
  let converted := applyConversion v f.conversion
  match parseIntegerCell converted f.clampRange with
  | some n => .int n
  | none => .null

/-- One date-section field of make_record_from_row. -/
def dateFieldValueG (row : Row) (f : FieldSpec) : Value :=
  let v := normalizeCellValue (rowGet row f.csvHeader)
  match parseDatetimeValue (some v) with
  | some p => .date p.dateOf
  | none => .null

/-- One datetime-section field of make_record_from_row. -/
def datetimeFieldValueG (row : Row) (f : FieldSpec) : Value :=
  let v := normalizeCellValue (rowGet row f.csvHeader)
  match parseDatetimeValue (some v) with
  | some p => .dt p
  | none => .null

/-- Mirrors make_record_from_row of google_spreadsheet. -/
def makeRecordFromRowG (row : Row) (m : NormMappingG) : List (Str × Value) :=
  let r0 := m.stringSec.foldl (fun acc p => aupdate acc p.1 (stringFieldValueG row p.2)) []
  let r1 := m.textSec.foldl (fun acc p => aupdate acc p.1 (textFieldValueG row p.2)) r0
  let r2 := m.integerSec.foldl (fun acc p => aupdate acc p.1 (integerFieldValueG row p.2)) r1
  let r3 := m.dateSec.foldl (fun acc p => aupdate acc p.1 (dateFieldValueG row p.2)) r2
  m.datetimeSec.foldl (fun acc p => aupdate acc p.1 (datetimeFieldValueG row p.2)) r3

/-- Mirrors build_enquete_key of google_spreadsheet: the room field prefers
the string section, the stay-start field prefers the date section; a room
field that is a value of the integer section goes through the integer parse,
otherwise the width-folded value must be purely decimal; the tie-break is the
literal one and no affixes exist in this revision. -/
def buildEnqueteKeyG (row : Row) (m : NormMappingG) : Option Str :=
  let roomField := (alookup m.stringSec roomKey).orElse (fun _ => alookup m.integerSec roomKey)
  let startField := (alookup m.dateSec startKey).orElse (fun _ => alookup m.datetimeSec startKey)
  match roomField, startField with
  | some rf, some sf =>
    let rv0 := normalizeCellValue (rowGet row rf.csvHeader)
    let rv1 := applyConversion rv0 rf.conversion
    let roomValue : Option Str :=
      if (m.integerSec.map Prod.snd).any (fun g => g == rf) then
        match parseIntegerCell rv1 rf.clampRange with
        | some n => some (intToStr n)
        | none => none
      else
        let normalized := z2h rv1
        if pyIsDecimal normalized then some normalized else none
    match roomValue with
    | none => none
    | some rv =>
      let startDateValue := normalizeCellValue (rowGet row sf.csvHeader)
      match parseDatetimeValue (some startDateValue) with
      | none => none
      | some parsed => some (rv ++ ('-' :: fmtYYYYMMDD parsed) ++ ['-', '1'])
  | _, _ => none

/-- Mirrors build_generated_fields of google_spreadsheet. -/
def buildGeneratedFieldsG (row : Row) (m : NormMappingG) (facilityCode : Int)
    (now : PyDateTime) : List (Str × Value) :=
  [(fcKey, .int facilityCode),
   (ekKey, match buildEnqueteKeyG row m with
           | some k => .str k
           | none => .null),
   (idKey, .dt now)]

/-- ImportJob of the source: destination table, resolved mapping, label. -/
structure FanoutJob where
  table : Str
  mapping : NormMappingG
  mappingName : Option Str

/-- Configuration keys of a fan-out job descriptor. -/
def tableKey : Str := "table".data
def mappingKey : Str := "mapping".data

/-- Mirrors one iteration of the imports loop of import_facility: a
dictionary that is not a bare mapping definition is a job descriptor carrying
a table override and a mapping reference (the descriptor itself when no
mapping key is present); anything else is itself the mapping reference. -/
def jobOfEntry (available : List (Str × GVal)) (facilityDefaultTable : Str) (entry : GVal) :
    Except PyError FanoutJob := do
  let (tableOverride, ref0, label0) : Str × GVal × Option Str :=
    match entry with
    | .dict es =>
      if !isMappingDefinitionDict (GVal.dict es) then
        let t := ((alookup es tableKey).bind gNormOptStr).getD facilityDefaultTable
        match alookup es mappingKey with
        | some mref => (t, mref, match mref with | .str s => some s | _ => none)
        | none => (t, GVal.dict es, none)
      else (facilityDefaultTable, GVal.dict es, none)
    | e => (facilityDefaultTable, e, none)
  let reference := gSanitizeRef ref0
  let mapping ← resolveMappingG available reference
  let label := match label0 with
    | some l => some l
    | none => match reference with | .str s => some s | _ => none
  pure ⟨tableOverride, mapping, label⟩

/-- The per-run registry of already-cleared (table, facility) pairs. -/
abbrev ClearedMap := List (Str × List Int)

/-- Per-location configuration surface read by import_facility of
google_spreadsheet.  The delete key is part of the configuration surface of
the other revision; this function never reads it. -/
structure GFacilityConfig where
  facilityCode : Option Int
  mappings : GVal
  mapping : GVal
  table : Option Str
  deleteFlag : Option Bool
  fanoutCfg : GVal

/-- Per-organization configuration surface read by import_facility. -/
structure GCorpConfig where
  mappings : GVal
  mapping : GVal

/-- Mirrors import_facility of google_spreadsheet: catalogs merged in layers,
jobs built from the imports list or the single mapping reference, one fetch
shared by all jobs, and per job a delete of the facility rows (only once per
table and facility within a run), then a bulk insert of the buffered rows,
each committed.  Fetched rows are a parameter; database work is returned as
the list of issued operations together with the updated cleared registry. -/
def facilityImportG (cfg : GFacilityConfig) (corp : GCorpConfig)
    (baseMappings : GVal) (defaultTableName : Str)
    (records : List Row) (now : PyDateTime) (cleared : ClearedMap) :
    Except PyError (List DbOp × ClearedMap) := do
  match cfg.facilityCode with
  | none => throw (.valueError fcReqMsg)
  | some facilityCode => do
    let a0 ← mergeMappingCatalog [] baseMappings
    let a1 ← mergeMappingCatalog a0 corp.mappings
    let available ← mergeMappingCatalog a1 cfg.mappings
    let facilityDefaultTable := (normalizeOptionalStr cfg.table).getD defaultTableName
    let jobs ← (do
      if !gFalsy cfg.fanoutCfg then
        match cfg.fanoutCfg with
        | .listV entries => entries.mapM (jobOfEntry available facilityDefaultTable)
        | _ => throw (.typeError "'imports' configuration must be a list if provided.")
      else do
        let ref0 := gSanitizeRef cfg.mapping
        let reference := if ref0.isNull then gSanitizeRef corp.mapping else ref0
        let mapping ← resolveMappingG available reference
        let label := match reference with | .str s => some s | _ => none
        pure ([⟨facilityDefaultTable, mapping, label⟩] : List FanoutJob))
    if jobs.isEmpty then pure ([], cleared)
    else
      pure (jobs.foldl (fun (acc : List DbOp × ClearedMap) job =>
        let (ops, cl) := acc
        let orderedKeys := buildOrderedKeysG job.mapping
        let cl := if (alookup cl job.table).isNone then aupdate cl job.table [] else cl
        let curr := (alookup cl job.table).getD []
        let (ops, cl) :=
          if curr.contains facilityCode then (ops, cl)
          else (ops ++ [DbOp.del job.table facilityCode],
                aupdate cl job.table (curr ++ [facilityCode]))
        if records.isEmpty then (ops ++ [DbOp.commit], cl)
        else
          let buffer := records.map (fun row =>
            let record := makeRecordFromRowG row job.mapping
            let record := dictMerge record (buildGeneratedFieldsG row job.mapping facilityCode now)
            orderedKeys.map (fun k => (alookup record k).getD Value.null))
          if buffer.isEmpty then (ops ++ [DbOp.commit], cl)
          else (ops ++ [DbOp.ins job.table orderedKeys buffer, DbOp.commit], cl))
        (([], cleared) : List DbOp × ClearedMap))

/-
  Heap model of resolve_mapping.  The pure model above treats the deepcopy as
  the identity, which cannot express the frame property that resolution never
  mutates the catalog.  Here mapping objects live in an explicit object store:
  the catalog maps names to addresses, deepcopy allocates a fresh address
  holding the same contents, and setdefault mutates the addressed object;
  had resolve_mapping aliased the looked-up object instead of copying it, the
  setdefault would hit the catalog's address and the frame theorem would
  fail.  Object contents are immutable trees, which is faithful because
  resolve_mapping and normalize_mapping never mutate below the top level. -/
structure Heap where
  next : Nat
  mem : List (Nat × GVal)

/-- Well-formed heap: every allocated address is below the allocation bound. -/
def heapWF (h : Heap) : Prop := ∀ p ∈ h.mem, p.1 < h.next

/-- Object contents at an address. -/
def hget (h : Heap) (a : Nat) : Option GVal := alookup h.mem a

/-- In-place overwrite of the object at an address. -/
def hset (h : Heap) (a : Nat) (v : GVal) : Heap := ⟨h.next, aupdate h.mem a v⟩

/-- A mapping reference against the heap: absent, a name, the address of an
inline definition object, or a value of another type. -/
inductive HRef where
  | null
  | name (s : Str)
  | inlineAddr (a : Nat)
  | other

/-- Message for an address not present in the store (never reachable from a
well-formed configuration). -/
def danglingMsg : String := "dangling object address"

/-- The source object the reference denotes, read without any mutation. -/
def refTarget (h : Heap) (catalog : List (Str × Nat)) (reference : HRef) :
    Except PyError GVal :=
  match (match reference with | HRef.null => HRef.name defaultName | r => r) with
  | .name n =>
    match alookup catalog n with
    | none => .error (.keyError (keyErrMsg n))
    | some a =>
      match hget h a with
      | some v => pure v
      | none => .error (.otherError danglingMsg)
  | .inlineAddr a =>
    match hget h a with
    | some v => pure v
    | none => .error (.otherError danglingMsg)
  | _ => .error (.typeError refTypeMsg)

/-- One iteration of the conversion-merging loop of resolve_mapping: the
conversion value is deep-copied (a fresh allocation) and stored with
setdefault into the deep-copied mapping object. -/
def setdefaultStep (copyAddr : Nat) (hh : Heap) (p : Str × Nat) : Except PyError Heap :=
  match hget hh p.2 with
  | none => .error (.otherError danglingMsg)
  | some cv =>
    let hh1 : Heap := ⟨hh.next + 1, (hh.next, cv) :: hh.mem⟩
    match hget hh1 copyAddr with
    | some (.dict es) =>
      pure (if (alookup es p.1).isSome then hh1
            else hset hh1 copyAddr (.dict (es ++ [(p.1, cv)])))
    | some _ => .error (.attrError setdefaultAttrMsg)
    | none => .error (.otherError danglingMsg)

/-- Heap-level resolve_mapping of google_spreadsheet: look the reference up,
deep-copy it to a fresh address, merge the catalog-root conversion entries
into the copy with setdefault, and normalize the copy. -/
def resolveMappingHeap (h : Heap) (catalog : List (Str × Nat)) (reference : HRef) :
    Except PyError (NormMappingG × Heap) :=
  match refTarget h catalog reference with
  | .error e => .error e
  | .ok srcVal =>
    let copyAddr := h.next
    let h1 : Heap := ⟨h.next + 1, (h.next, srcVal) :: h.mem⟩
    match (catalog.filter (fun p => isConversionKey p.1)).foldlM (setdefaultStep copyAddr) h1 with
    | .error e => .error e
    | .ok h2 =>
      match hget h2 copyAddr with
      | none => .error (.otherError danglingMsg)
      | some m =>
        match normalizeMappingG m with
        | .error e => .error e
        | .ok nm => .ok (nm, h2)

/-- Heap component of a successful resolution. -/
def exHeapOf : Except PyError (NormMappingG × Heap) → Heap
  | .ok p => p.2
  | .error _ => ⟨0, []⟩

end GS

namespace Fx

/-
  Concrete configurations, mappings and rows used to instantiate the
  theorems below.
-/

open Enq

/-- A fixed build timestamp standing for datetime.now(). -/
def fxNow : PyDateTime := ⟨2024, 1, 1, 0, 0, 0, none⟩

/-- A minimal mapping definition: one string column for the room. -/
def fxDefaultMapping : EI.RawMapping :=
  [(secString, .dict [(roomKey, "部屋".data)])]

/-- A mapping definition carrying the room and stay-start columns. -/
def fxKeyMappingRaw : EI.RawMapping :=
  [(secString, .dict [(roomKey, "部屋".data)]),
   (secDate, .dict [(startKey, "日付".data)])]

/-- An organization with no mapping defaults of its own. -/
def fxCorp : EI.CorpConfig := ⟨.noneRef, []⟩

/-- A facility whose mapping reference names a missing catalog entry. -/
def fxCfgMissing : EI.FacilityConfig :=
  ⟨some 1, .nameRef ("missing".data), [], none, [], none, none, none, none, none⟩

/-- A facility with the delete flag set to false. -/
def fxCfgNoDelete : EI.FacilityConfig :=
  ⟨some 7, .nameRef ("default".data), [(("default".data), fxDefaultMapping)],
   none, [], none, none, none, some false, none⟩

/-- A facility with the delete flag absent (defaulting to true). -/
def fxCfgDefault : EI.FacilityConfig :=
  ⟨some 7, .nameRef ("default".data), [(("default".data), fxDefaultMapping)],
   none, [], none, none, none, none, none⟩

/-- A facility with an inline mapping carrying room and stay-start columns. -/
def fxCfgKeyed : EI.FacilityConfig :=
  ⟨some 1, .inlineRef fxKeyMappingRaw, [], none, [], none, none, none, none, none⟩

/-- The facility run that fails on the missing mapping name. -/
def fxRunBad : EI.FacilityRun := ⟨"alpha".data, fxCfgMissing, []⟩

/-- A healthy facility run after the failing one. -/
def fxRunGood : EI.FacilityRun := ⟨"beta".data, fxCfgDefault, []⟩

/-- The resolved mapping of fxKeyMappingRaw. -/
def fxM5 : EI.NormMapping :=
  ⟨[(roomKey, "部屋".data)], [], [], [(startKey, "日付".data)], []⟩

/-- Its counterpart in the google_spreadsheet revision. -/
def fxM5g : GS.NormMappingG :=
  ⟨[(roomKey, ⟨"部屋".data, none, none⟩)], [], [],
   [(startKey, ⟨"日付".data, none, none⟩)], []⟩

/-- A row with room 101 and stay-start 2024-03-05. -/
def fxRow5 : Row := [(("部屋".data), ("101".data)), (("日付".data), ("2024-03-05".data))]

/-- The same row with a blank room. -/
def fxRowBlankRoom : Row := [(("部屋".data), []), (("日付".data), ("2024-03-05".data))]

/-- The same row with an unparsable stay-start date. -/
def fxRowBadDate : Row := [(("部屋".data), ("101".data)), (("日付".data), ("nonsense".data))]

/-- English-language mapping variant reading the Room header. -/
def fxEnMap : EI.RawMapping := [(secString, .dict [(roomKey, "Room".data)])]

/-- Japanese-language mapping variant reading the native header. -/
def fxJaMap : EI.RawMapping := [(secString, .dict [(roomKey, "部屋".data)])]

/-- A facility declaring a discriminator column with two language variants
and no default variant. -/
def fxCfgLang : EI.FacilityConfig :=
  ⟨some 3, .noneRef, [], some ("Lang".data),
   [(("en".data), .inlineRef fxEnMap), (("ja".data), .inlineRef fxJaMap)],
   none, none, none, none, none⟩

/-- The resolved language-variant table of fxCfgLang. -/
def fxLangResolved : List (Str × EI.NormMapping) :=
  [(("en".data), ⟨[(roomKey, "Room".data)], [], [], [], []⟩),
   (("ja".data), ⟨[(roomKey, "部屋".data)], [], [], [], []⟩)]

/-- Rows in English, in an undeclared language, and in Japanese. -/
def fxRowEn : Row :=
  [(("Lang".data), ("en".data)), (("Room".data), ("101".data)), (("部屋".data), ("201".data))]
def fxRowZh : Row :=
  [(("Lang".data), ("zh".data)), (("Room".data), ("102".data)), (("部屋".data), ("202".data))]
def fxRowJa : Row :=
  [(("Lang".data), ("ja".data)), (("Room".data), ("103".data)), (("部屋".data), ("203".data))]

/-- A google_spreadsheet facility with the delete flag set to false. -/
def fxGCfgNoDelete : GS.GFacilityConfig :=
  ⟨some 7, GS.GVal.null, GS.GVal.str ("default".data), none, some false, GS.GVal.null⟩

/-- An organization of the google_spreadsheet revision with no defaults. -/
def fxGCorp : GS.GCorpConfig := ⟨GS.GVal.null, GS.GVal.null⟩

/-- A base catalog of the google_spreadsheet revision with one mapping. -/
def fxGBase : GS.GVal :=
  GS.GVal.dict
    [(("default".data),
      GS.GVal.dict [(secString, GS.GVal.dict [(roomKey, GS.GVal.str ("部屋".data))])])]

/-- A google_spreadsheet mapping whose room column sits in the integer
section, so the derived key routes the room through parse_integer_cell. -/
def fxM6g : GS.NormMappingG :=
  ⟨[], [], [(roomKey, ⟨"部屋".data, none, none⟩)], [(startKey, ⟨"日付".data, none, none⟩)], []⟩

/-- A row whose room value is float-looking, hence present but not purely
numeric after width folding. -/
def fxRowFloatRoom : Row :=
  [(("部屋".data), ("87.5".data)), (("日付".data), ("2024-03-05".data))]

/-- A row whose room value is entirely non-numeric. -/
def fxRowAbcRoom : Row :=
  [(("部屋".data), ("abc".data)), (("日付".data), ("2024-03-05".data))]

/-- A two-object heap: the default mapping object and a shared conversion
table object. -/
def fxHeap : GS.Heap :=
  ⟨2, [(0, GS.GVal.dict [(secString, GS.GVal.dict [(roomKey, GS.GVal.str ("部屋".data))])]),
       (1, GS.GVal.dict [(("Good".data), GS.GVal.str ("良い".data))])]⟩

/-- The catalog over fxHeap: a default mapping and a root conversion entry. -/
def fxCatalog : List (Str × Nat) := [(("default".data), 0), (("conversion".data), 1)]

end Fx

namespace Enq

/-- Success check on a result. -/
def exIsOk {ε α : Type} : Except ε α → Bool
  | .ok _ => true
  | .error _ => false

theorem alookup_aupdate_self {κ α : Type} [DecidableEq κ] (d : List (κ × α)) (k : κ) (v : α) :
    alookup (aupdate d k v) k = some v := by
  induction d with
  | nil => simp [aupdate, alookup]
  | cons p rest ih =>
    by_cases hpk : p.1 = k
    · simp [aupdate, hpk, alookup]
    · simp [aupdate, hpk, alookup, ih]

theorem alookup_aupdate_ne {κ α : Type} [DecidableEq κ] (d : List (κ × α)) (k k' : κ) (v : α)
    (h : k ≠ k') : alookup (aupdate d k v) k' = alookup d k' := by
  induction d with
  | nil => simp [aupdate, alookup, h]
  | cons p rest ih =>
    by_cases hpk : p.1 = k
    · simp [aupdate, hpk, alookup, h]
    · simp [aupdate, hpk, alookup, ih]

theorem filterMap_all_some {α β : Type} (f : α → β) (l : List α) :
    l.filterMap (fun a => some (f a)) = l.map f := by
  induction l with
  | nil => rfl
  | cons a rest ih => simp [List.filterMap_cons, ih]

end Enq

namespace Enq

/-- Clamping commutes with the rest of parse_integer_cell: the clamped parse
is the unclamped parse post-composed with the clamp. -/
theorem parseIntegerCell_clamp_map (s : Str) (mn mx : Int) :
    GS.parseIntegerCell s (some (mn, mx)) =
      (GS.parseIntegerCell s none).map (fun p => min (max p mn) mx) := by
  by_cases hs : s.isEmpty
  · simp [GS.parseIntegerCell, hs]
  · by_cases hd : pyIsDecimal ((z2h s).filter (fun c => c != ',')) = true
    · simp [GS.parseIntegerCell, hs, hd]
    · cases hf : pyFloat ((z2h s).filter (fun c => c != ',')) with
      | none => simp [GS.parseIntegerCell, hs, hd, hf]
      | some q => simp [GS.parseIntegerCell, hs, hd, hf]

/-- C2: for the integer fields carrying the clamp range zero to one hundred,
every successfully parsed value lies in the closed interval: in the
google_spreadsheet revision through parse_integer_cell with its clamp, and in
the enquetes_importer revision through normalize_comprehensive_evaluation;
moreover zero and one hundred map to themselves, negative inputs to zero,
inputs above one hundred to one hundred, and a floating-point-looking input
such as 87.5 truncates to 87 before clamping. -/
theorem c2_clamped_evaluation_range (s t : Str) (v w : Int)
    (h1 : GS.parseIntegerCell s (some (0, 100)) = some v)
    (h2 : EI.normalizeComprehensiveEvaluation t = some w) :
    ((0 ≤ v ∧ v ≤ 100) ∧ (0 ≤ w ∧ w ≤ 100)) ∧
    GS.parseIntegerCell ("0".data) (some (0, 100)) = some 0 ∧
    GS.parseIntegerCell ("100".data) (some (0, 100)) = some 100 ∧
    GS.parseIntegerCell ("-5".data) (some (0, 100)) = some 0 ∧
    GS.parseIntegerCell ("150".data) (some (0, 100)) = some 100 ∧
    GS.parseIntegerCell ("87.5".data) (some (0, 100)) = some 87 ∧
    EI.normalizeComprehensiveEvaluation ("0".data) = some 0 ∧
    EI.normalizeComprehensiveEvaluation ("100".data) = some 100 ∧
    EI.normalizeComprehensiveEvaluation ("-3".data) = some 0 ∧
    EI.normalizeComprehensiveEvaluation ("150".data) = some 100 ∧
    EI.normalizeComprehensiveEvaluation ("87.5".data) = some 87 := by
  refine ⟨⟨?_, ?_⟩, by decide, by decide, by decide, by decide, by decide,
    by decide, by decide, by decide, by decide, by decide⟩
  · rw [parseIntegerCell_clamp_map] at h1
    cases hp : GS.parseIntegerCell s none with
    | none => rw [hp] at h1; simp at h1
    | some p =>
      rw [hp] at h1
      simp only [Option.map_some', Option.some.injEq] at h1
      rw [← h1]
      exact ⟨le_min (le_max_right _ _) (by norm_num), min_le_right _ _⟩
  · unfold EI.normalizeComprehensiveEvaluation at h2
    cases hf : pyFloat t with
    | none => rw [hf] at h2; simp at h2
    | some q =>
      rw [hf] at h2
      by_cases hq1 : q.num ≤ 0
      · simp [hq1] at h2; omega
      · by_cases hq2 : 100 * (q.den : Int) ≤ q.num
        · simp [hq1, hq2] at h2; omega
        · simp only [if_neg hq1, if_neg hq2, Option.some.injEq] at h2
          rw [← h2]
          rcases Nat.eq_zero_or_pos q.den with hd0 | hdpos
          · simp [DecVal.trunc, hd0]
          · constructor
            · exact Int.tdiv_nonneg (by omega) (Int.ofNat_nonneg _)
            · have hden : (0 : Int) < (q.den : Int) := by exact_mod_cast hdpos
              have htd : DecVal.trunc q = q.num / (q.den : Int) := by
                unfold DecVal.trunc
                exact Int.tdiv_eq_ediv (by omega) (Int.ofNat_nonneg _)
              rw [htd]
              have hlt : q.num / (q.den : Int) < 100 :=
                (Int.ediv_lt_iff_lt_mul hden).mpr (by omega)
              omega

/-- Witness for C2 at the concrete input 87.5, which parses to 87. -/
theorem c2_clamped_evaluation_range_witness :
    ((0 ≤ (87 : Int) ∧ (87 : Int) ≤ 100) ∧ (0 ≤ (87 : Int) ∧ (87 : Int) ≤ 100)) ∧
    GS.parseIntegerCell ("0".data) (some (0, 100)) = some 0 ∧
    GS.parseIntegerCell ("100".data) (some (0, 100)) = some 100 ∧
    GS.parseIntegerCell ("-5".data) (some (0, 100)) = some 0 ∧
    GS.parseIntegerCell ("150".data) (some (0, 100)) = some 100 ∧
    GS.parseIntegerCell ("87.5".data) (some (0, 100)) = some 87 ∧
    EI.normalizeComprehensiveEvaluation ("0".data) = some 0 ∧
    EI.normalizeComprehensiveEvaluation ("100".data) = some 100 ∧
    EI.normalizeComprehensiveEvaluation ("-3".data) = some 0 ∧
    EI.normalizeComprehensiveEvaluation ("150".data) = some 100 ∧
    EI.normalizeComprehensiveEvaluation ("87.5".data) = some 87 :=
  c2_clamped_evaluation_range ("87.5".data) ("87.5".data) 87 87 (by decide) (by decide)

/-- Counterexample to C3 as stated: in the enquetes_importer revision, an
ordinary integer field (not the designated evaluation column) maps the
floating-point-looking cell 87.5 and the comma-grouped cell 1,000 to None,
while the claimed pipeline (as parse_integer_cell of the other revision
implements it) would give 87 and 1000. -/
theorem c3_counterexample :
    alookup (EI.makeRecordFromRow [(("col".data), ("87.5".data))]
        ⟨[], [], [(("score".data), ("col".data))], [], []⟩ []) ("score".data) =
      some Value.null ∧
    alookup (EI.makeRecordFromRow [(("col".data), ("1,000".data))]
        ⟨[], [], [(("score".data), ("col".data))], [], []⟩ []) ("score".data) =
      some Value.null ∧
    GS.parseIntegerCell ("87.5".data) none = some 87 ∧
    GS.parseIntegerCell ("1,000".data) none = some 1000 ∧
    some Value.null ≠ some (Value.int 87) := by decide

/-- C3 as amended: the described pipeline (width folding, comma stripping,
integer parse, float-truncation fallback, None on failure) is exactly
parse_integer_cell of the google_spreadsheet revision; in the
enquetes_importer revision only the designated evaluation column has the
float fallback, and every other integer field parses strictly decimal after
width folding, yielding None (not an exception) otherwise. -/
theorem c3_integer_parse_pipeline (s u w v dbKey csvKey : Str) (q : DecVal)
    (c : Option (Int × Int))
    (h1 : pyIsDecimal ((z2h s).filter (fun ch => ch != ',')) = false)
    (h2 : pyFloat ((z2h s).filter (fun ch => ch != ',')) = some q)
    (h3 : pyIsDecimal ((z2h u).filter (fun ch => ch != ',')) = false)
    (h4 : pyFloat ((z2h u).filter (fun ch => ch != ',')) = none)
    (h5 : pyIsDecimal ((z2h w).filter (fun ch => ch != ',')) = true)
    (h6 : ¬ dbKey = compEvalKey)
    (h7 : pyIsDecimal (z2h (pyStrip v)) = false)
    (h8 : s ≠ []) (h9 : u ≠ []) :
    GS.parseIntegerCell s none = some q.trunc ∧
    GS.parseIntegerCell u c = none ∧
    GS.parseIntegerCell w none = some (decimalVal ((z2h w).filter (fun ch => ch != ','))) ∧
    EI.integerFieldValue [(csvKey, v)] [] dbKey csvKey = Value.null := by
  have hse : s.isEmpty = false := by cases s <;> simp_all
  have hue : u.isEmpty = false := by cases u <;> simp_all
  have hwne : w ≠ [] := by
    intro hw
    rw [hw] at h5
    simp [z2h, pyIsDecimal] at h5
  have hwe : w.isEmpty = false := by cases w <;> simp_all
  refine ⟨?_, ?_, ?_, ?_⟩
  · simp [GS.parseIntegerCell, hse, h1, h2]
  · simp [GS.parseIntegerCell, hue, h3, h4]
  · simp [GS.parseIntegerCell, hwe, h5]
  · unfold EI.integerFieldValue
    simp only [EI.applyValueConversion, List.isEmpty_nil, if_true]
    by_cases hv : (normalizeCellValue (rowGet [(csvKey, v)] csvKey)).isEmpty
    · simp [hv]
    · have hrow : rowGet [(csvKey, v)] csvKey = some v := by simp [rowGet, alookup]
      rw [hrow] at hv ⊢
      simp only [hv, if_false, Bool.false_eq_true]
      simp [normalizeCellValue, h6, h7]

/-- Witness for C3 as amended: 87.5 truncates to 87 through the float
fallback, abc yields None, the full-width grouped 1,000 width-folds and
strips to the integer 1000, and the enquetes_importer revision maps 87.5 in
an ordinary integer field to None. -/
theorem c3_integer_parse_pipeline_witness :
    GS.parseIntegerCell ("87.5".data) none = some (DecVal.trunc ⟨875, 10⟩) ∧
    GS.parseIntegerCell ("abc".data) none = none ∧
    GS.parseIntegerCell ("１,000".data) none =
      some (decimalVal ((z2h ("１,000".data)).filter (fun ch => ch != ','))) ∧
    EI.integerFieldValue [(("col".data), ("87.5".data))] [] ("score".data) ("col".data) =
      Value.null :=
  c3_integer_parse_pipeline ("87.5".data) ("abc".data) ("１,000".data) ("87.5".data)
    ("score".data) ("col".data) ⟨875, 10⟩ none
    (by decide) (by decide) (by decide) (by decide) (by decide) (by decide) (by decide)
    (by decide) (by decide)

/-- Counterexample to C1 as stated: a run over two facilities whose first
facility references a missing mapping name aborts with the KeyError after
rolling the facility back; the second facility is never processed, so the
error is fatal to the whole run, not a logged skip. -/
theorem c1_counterexample :
    EI.processFacilities Fx.fxCorp [] ("enquetes".data) Fx.fxNow
        [Fx.fxRunBad, Fx.fxRunGood] [] [] =
      .aborted [] [] ("alpha".data) (.keyError (keyErrMsg ("missing".data))) := by decide

/-- C1 as amended: a mapping reference naming an entry absent from the merged
catalogs fails with a KeyError, and the orchestrator's per-facility handler
catches only ValueError, so a facility failing with a KeyError is rolled back
(its operations are discarded) and the error is re-raised, aborting the whole
run without processing the remaining facilities. -/
theorem c1_missing_mapping_aborts_run (mappings : List (Str × EI.RawMapping)) (n : Str)
    (corp : EI.CorpConfig) (base : List (Str × EI.RawMapping)) (tbl : Str) (now : PyDateTime)
    (f : EI.FacilityRun) (rest : List EI.FacilityRun)
    (committed : List (Str × List DbOp)) (skipped : List Str) (msg : String)
    (hmiss : alookup mappings n = none)
    (hfail : EI.facilityImport f.cfg corp base tbl f.records now = .error (.keyError msg)) :
    EI.resolveMapping mappings (.nameRef n) = .error (.keyError (keyErrMsg n)) ∧
    EI.processFacilities corp base tbl now (f :: rest) committed skipped =
      .aborted committed.reverse skipped.reverse f.name (.keyError msg) := by
  constructor
  · simp [EI.resolveMapping, hmiss]
  · unfold EI.processFacilities
    rw [hfail]

/-- Witness for C1 as amended, at the concrete failing run. -/
theorem c1_missing_mapping_aborts_run_witness :
    EI.resolveMapping [] (.nameRef ("missing".data)) =
      .error (.keyError (keyErrMsg ("missing".data))) ∧
    EI.processFacilities Fx.fxCorp [] ("enquetes".data) Fx.fxNow
        (Fx.fxRunBad :: [Fx.fxRunGood]) [] [] =
      .aborted [] [] Fx.fxRunBad.name (.keyError (keyErrMsg ("missing".data))) :=
  c1_missing_mapping_aborts_run [] ("missing".data) Fx.fxCorp [] ("enquetes".data) Fx.fxNow
    Fx.fxRunBad [Fx.fxRunGood] [] [] (keyErrMsg ("missing".data)) (by decide) rfl

/-- Shape of the issued operations of import_facility of enquetes_importer
when the fetch returned no rows: the optional delete, then the commit. -/
theorem c7_shape (cfg : EI.FacilityConfig) (corp : EI.CorpConfig)
    (base : List (Str × EI.RawMapping)) (tbl : Str) (now : PyDateTime)
    (fc : Int) (ops : List DbOp)
    (hfc : cfg.facilityCode = some fc)
    (hok : EI.facilityImport cfg corp base tbl [] now = .ok ops) :
    ops = (if cfg.deleteFlag.getD true
           then [DbOp.del ((normalizeOptionalStr cfg.table).getD tbl) fc]
           else []) ++ [DbOp.commit] := by
  unfold EI.facilityImport at hok
  rw [hfc] at hok
  cases hcv : EI.normalizeValueConversions cfg.valueConversions with
  | error e => rw [hcv] at hok; simp [Except.instMonad, Except.bind] at hok
  | ok convs =>
    rw [hcv] at hok
    simp only [Except.instMonad, Except.bind, Except.map, Except.pure, pure, bind,
      List.filterMap_nil, List.isEmpty_nil] at hok
    split at hok <;> try split at hok <;> try split at hok <;> try split at hok <;>
      try split at hok
    all_goals simp_all

/-- Counterexample to C7 as stated: in the google_spreadsheet revision the
delete flag of the configuration surface is never read, so a location
configured with delete false and zero fetched rows still issues the delete
against its destination table. -/
theorem c7_counterexample :
    Fx.fxGCfgNoDelete.deleteFlag = some false ∧
    GS.facilityImportG Fx.fxGCfgNoDelete Fx.fxGCorp Fx.fxGBase ("enquetes".data) [] Fx.fxNow [] =
      .ok ([DbOp.del ("enquetes".data) 7, DbOp.commit], [(("enquetes".data), [7])]) :=
  ⟨rfl, rfl⟩

/-- C7 as amended: in the enquetes_importer revision a location with delete
false and zero fetched rows issues neither a delete nor an insert (only the
commit), while with the flag absent (defaulting to true) the delete is issued
even with no replacement rows; the google_spreadsheet revision has no delete
flag and always purges. -/
theorem c7_delete_flag (cfg cfg2 : EI.FacilityConfig) (corp : EI.CorpConfig)
    (base : List (Str × EI.RawMapping)) (tbl : Str) (now : PyDateTime)
    (fc fc2 : Int) (ops ops2 : List DbOp)
    (hfc : cfg.facilityCode = some fc)
    (h1 : cfg.deleteFlag = some false)
    (h2 : EI.facilityImport cfg corp base tbl [] now = .ok ops)
    (hfc2 : cfg2.facilityCode = some fc2)
    (h3 : cfg2.deleteFlag = none)
    (h4 : EI.facilityImport cfg2 corp base tbl [] now = .ok ops2) :
    ops = [DbOp.commit] ∧
    ops2 = [DbOp.del ((normalizeOptionalStr cfg2.table).getD tbl) fc2, DbOp.commit] := by
  constructor
  · have hsh := c7_shape cfg corp base tbl now fc ops hfc h2
    rw [h1] at hsh
    simpa using hsh
  · have hsh := c7_shape cfg2 corp base tbl now fc2 ops2 hfc2 h4
    rw [h3] at hsh
    simpa using hsh

/-- Witness for C7 as amended, at two concrete configurations. -/
theorem c7_delete_flag_witness :
    [DbOp.commit] = [DbOp.commit] ∧
    [DbOp.del ("enquetes".data) 7, DbOp.commit] =
      [DbOp.del ((normalizeOptionalStr Fx.fxCfgDefault.table).getD ("enquetes".data)) 7,
       DbOp.commit] :=
  c7_delete_flag Fx.fxCfgNoDelete Fx.fxCfgDefault Fx.fxCorp [] ("enquetes".data) Fx.fxNow
    7 7 [DbOp.commit] [DbOp.del ("enquetes".data) 7, DbOp.commit]
    (by decide) (by decide) rfl (by decide) (by decide) rfl

/-- C5: every row whose room field parses to 101 and whose stay-start field
parses to the fifth of March 2024 derives, at facility code one (the
tie-break of the enquetes_importer revision), the key 101-20240305-1, and
with the literal affixes A- and X the key A-101-20240305-1-X; the
google_spreadsheet revision derives the same key with its literal tie-break
one. -/
theorem c5_derived_key_shape (row : Row) (d : PyDateTime)
    (h1 : z2h (normalizeCellValue (rowGet row ("部屋".data))) = "101".data)
    (h2 : parseDatetimeValue (some (normalizeCellValue (rowGet row ("日付".data)))) = some d)
    (h3 : d.year = 2024) (h4 : d.month = 3) (h5 : d.day = 5) :
    EI.buildEnqueteKey row Fx.fxM5 1 none none [] = some ("101-20240305-1".data) ∧
    EI.buildEnqueteKey row Fx.fxM5 1 (some ("A-".data)) (some ("X".data)) [] =
      some ("A-101-20240305-1-X".data) ∧
    GS.buildEnqueteKeyG Fx.fxRow5 Fx.fxM5g = some ("101-20240305-1".data) := by
  have hfmt : fmtYYYYMMDD d = "20240305".data := by
    unfold fmtYYYYMMDD
    rw [h3, h4, h5]
    decide
  refine ⟨?_, ?_, by decide⟩
  · unfold EI.buildEnqueteKey
    simp [Fx.fxM5, alookup, orFalsyStr, truthyOpt, EI.applyValueConversion, h1, h2, hfmt]
    exact ⟨by decide, by decide⟩
  · unfold EI.buildEnqueteKey
    simp [Fx.fxM5, alookup, orFalsyStr, truthyOpt, EI.applyValueConversion, h1, h2, hfmt]
    exact ⟨by decide, by decide⟩

/-- Witness for C5 at the concrete row. -/
theorem c5_derived_key_shape_witness :
    EI.buildEnqueteKey Fx.fxRow5 Fx.fxM5 1 none none [] = some ("101-20240305-1".data) ∧
    EI.buildEnqueteKey Fx.fxRow5 Fx.fxM5 1 (some ("A-".data)) (some ("X".data)) [] =
      some ("A-101-20240305-1-X".data) ∧
    GS.buildEnqueteKeyG Fx.fxRow5 Fx.fxM5g = some ("101-20240305-1".data) :=
  c5_derived_key_shape Fx.fxRow5 ⟨2024, 3, 5, 0, 0, 0, some jstName⟩
    (by decide) (by decide) rfl rfl rfl

/-- Counterexample to C6 as stated: in the google_spreadsheet revision a
room column declared in the integer section routes its value through
parse_integer_cell, whose float fallback turns the present but not purely
numeric value 87.5 into 87, so the derived key is 87-20240305-1 rather than
the claimed None. -/
theorem c6_counterexample :
    pyIsDecimal (z2h ("87.5".data)) = false ∧
    GS.buildEnqueteKeyG [(("部屋".data), ("87.5".data)), (("日付".data), ("2024-03-05".data))]
        Fx.fxM6g = some ("87-20240305-1".data) ∧
    some ("87-20240305-1".data) ≠ (none : Option Str) := by decide

/-- C6 as amended: in the enquetes_importer revision a room value that is
blank or not purely numeric after width folding, or an unparsable stay-start
date, makes the derived key None without raising; the facility import still
succeeds, every fetched row (the null-key row included) is buffered into the
insert, and the merged record carries None in the derived-key column.  In the
google_spreadsheet revision this holds for a string-section room, but an
integer-section room is parsed by parse_integer_cell: when that parse
succeeds (as on a float-looking value) the key is built from the truncated
integer instead of being None, and only when it fails is the key None. -/
theorem c6_null_key_amended (m : EI.NormMapping) (row row2 : Row)
    (convs : List (Str × List (Str × Str))) (fc : Int) (pre suf : Option Str) (rh sh : Str)
    (cfg : EI.FacilityConfig) (corp : EI.CorpConfig) (base : List (Str × EI.RawMapping))
    (tbl : Str) (now : PyDateTime) (records : List Row) (mres : EI.NormMapping)
    (mg : GS.NormMappingG) (rowg rowg2 : Row) (rfI sfG : GS.FieldSpec)
    (n : Int) (dG : PyDateTime)
    (h1 : orFalsyStr (alookup m.stringSec roomKey) (alookup m.integerSec roomKey) = some rh)
    (h2 : pyIsDecimal (z2h (normalizeCellValue
            (EI.applyValueConversion (rowGet row rh) roomKey convs))) = false)
    (h3 : orFalsyStr (alookup m.dateSec startKey) (alookup m.datetimeSec startKey) = some sh)
    (h4 : parseDatetimeValue (some (normalizeCellValue (rowGet row2 sh))) = none)
    (h5 : normalizeOptionalStr cfg.languageColumn = none)
    (h6 : cfg.facilityCode = some fc)
    (h7 : EI.normalizeValueConversions cfg.valueConversions = .ok convs)
    (h8 : EI.resolveMapping (dictMerge (dictMerge base corp.mappings) cfg.mappings)
            (if (EI.sanitizeRef cfg.mapping).isNoneRef = true then EI.sanitizeRef corp.mapping
             else EI.sanitizeRef cfg.mapping) = .ok mres)
    (h9 : records ≠ [])
    (hg1 : (alookup mg.stringSec roomKey).orElse
            (fun _ => alookup mg.integerSec roomKey) = some rfI)
    (hg2 : (mg.integerSec.map Prod.snd).any (fun g => g == rfI) = true)
    (hg3 : (alookup mg.dateSec startKey).orElse
            (fun _ => alookup mg.datetimeSec startKey) = some sfG)
    (hg4 : GS.parseIntegerCell (GS.applyConversion
            (normalizeCellValue (rowGet rowg rfI.csvHeader)) rfI.conversion)
            rfI.clampRange = some n)
    (hg5 : parseDatetimeValue (some (normalizeCellValue (rowGet rowg sfG.csvHeader))) = some dG)
    (hg6 : GS.parseIntegerCell (GS.applyConversion
            (normalizeCellValue (rowGet rowg2 rfI.csvHeader)) rfI.conversion)
            rfI.clampRange = none) :
    EI.buildEnqueteKey row m fc pre suf convs = none ∧
    EI.buildEnqueteKey row2 m fc pre suf convs = none ∧
    EI.facilityImport cfg corp base tbl records now = .ok
      ((if cfg.deleteFlag.getD true
        then [DbOp.del ((normalizeOptionalStr cfg.table).getD tbl) fc] else []) ++
       [DbOp.ins ((normalizeOptionalStr cfg.table).getD tbl) (EI.buildOrderedKeys mres)
          (records.map (fun r =>
            EI.bufferRowOf r mres convs fc cfg.keyPre cfg.keySuf now (EI.buildOrderedKeys mres))),
        DbOp.commit]) ∧
    alookup (dictMerge (EI.makeRecordFromRow row m convs)
      (EI.buildGeneratedFields row m fc pre suf convs now)) ekKey = some Value.null ∧
    GS.buildEnqueteKeyG rowg mg =
      some (intToStr n ++ ('-' :: fmtYYYYMMDD dG) ++ ['-', '1']) ∧
    GS.buildEnqueteKeyG rowg2 mg = none := by
  have hA : EI.buildEnqueteKey row m fc pre suf convs = none := by
    unfold EI.buildEnqueteKey
    rw [h1, h3]
    by_cases hrh : truthyOpt (some rh) = true
    · by_cases hsh : truthyOpt (some sh) = true
      · simp [hrh, hsh, h2]
      · simp [hsh]
    · simp [hrh]
  have hB : EI.buildEnqueteKey row2 m fc pre suf convs = none := by
    unfold EI.buildEnqueteKey
    rw [h1, h3]
    by_cases hrh : truthyOpt (some rh) = true
    · by_cases hsh : truthyOpt (some sh) = true
      · by_cases hdec : pyIsDecimal (z2h (normalizeCellValue
            (EI.applyValueConversion (rowGet row2 rh) roomKey convs))) = true
        · simp [hrh, hsh, hdec, h4]
        · simp [hrh, hsh, hdec]
      · simp [hsh]
    · simp [hrh]
  refine ⟨hA, hB, ?_, ?_, ?_, ?_⟩
  · unfold EI.facilityImport
    rw [h6, h7, h5]
    simp only [Except.instMonad, Except.bind, bind, pure, Except.pure, Except.map]
    rw [h8]
    simp only [Except.instMonad, Except.bind, bind, pure, Except.pure, Except.map]
    rw [filterMap_all_some]
    have hne : (records.map (fun r =>
        EI.bufferRowOf r mres convs fc cfg.keyPre cfg.keySuf now
          (EI.buildOrderedKeys mres))).isEmpty = false := by
      cases records with
      | nil => exact absurd rfl h9
      | cons a l => simp
    rw [hne]
    simp
  · unfold dictMerge EI.buildGeneratedFields
    simp only [List.foldl]
    rw [alookup_aupdate_ne _ _ _ _ (by decide)]
    rw [alookup_aupdate_self]
    rw [hA]
  · unfold GS.buildEnqueteKeyG
    rw [hg1, hg3]
    simp only [hg2, if_true, hg4, hg5]
  · unfold GS.buildEnqueteKeyG
    rw [hg1, hg3]
    simp only [hg2, if_true, hg6]

/-- Witness for C6 as amended: the blank-room and bad-date rows of the
enquetes_importer revision derive a None key with the row still buffered, the
float-looking integer-section room of the google_spreadsheet revision derives
the truncated non-null key, and the fully non-numeric room derives None. -/
theorem c6_null_key_amended_witness :
    EI.buildEnqueteKey Fx.fxRowBlankRoom Fx.fxM5 1 none none [] = none ∧
    EI.buildEnqueteKey Fx.fxRowBadDate Fx.fxM5 1 none none [] = none ∧
    EI.facilityImport Fx.fxCfgKeyed Fx.fxCorp [] ("enquetes".data) [Fx.fxRowBlankRoom] Fx.fxNow =
      .ok [DbOp.del ("enquetes".data) 1,
           DbOp.ins ("enquetes".data) [roomKey, startKey, fcKey, ekKey, idKey]
             [[Value.null, Value.date ⟨2024, 3, 5⟩, Value.int 1, Value.null, Value.dt Fx.fxNow]],
           DbOp.commit] ∧
    alookup (dictMerge (EI.makeRecordFromRow Fx.fxRowBlankRoom Fx.fxM5 [])
      (EI.buildGeneratedFields Fx.fxRowBlankRoom Fx.fxM5 1 none none [] Fx.fxNow)) ekKey =
      some Value.null ∧
    GS.buildEnqueteKeyG Fx.fxRowFloatRoom Fx.fxM6g = some ("87-20240305-1".data) ∧
    GS.buildEnqueteKeyG Fx.fxRowAbcRoom Fx.fxM6g = none :=
  c6_null_key_amended Fx.fxM5 Fx.fxRowBlankRoom Fx.fxRowBadDate [] 1 none none
    ("部屋".data) ("日付".data) Fx.fxCfgKeyed Fx.fxCorp [] ("enquetes".data) Fx.fxNow
    [Fx.fxRowBlankRoom] Fx.fxM5
    Fx.fxM6g Fx.fxRowFloatRoom Fx.fxRowAbcRoom
    ⟨"部屋".data, none, none⟩ ⟨"日付".data, none, none⟩ 87 ⟨2024, 3, 5, 0, 0, 0, some jstName⟩
    (by decide) (by decide) (by decide) (by decide) rfl rfl rfl rfl (by decide)
    (by decide) (by decide) (by decide) (by decide) (by decide) (by decide)

/-- C8: with a discriminator column declared, a fetched row whose normalized
discriminator value matches no declared language variant, when no default
variant exists, is excluded from the insert buffer and the import proceeds as
if the row were absent; a row with a matched variant is built with that
variant's mapping and buffered; and the facility import never fails on
account of row-level language matching. -/
theorem c8_unmatched_language_row_skipped (cfg : EI.FacilityConfig) (corp : EI.CorpConfig) (base : List (Str × EI.RawMapping))
    (tbl : Str) (now : PyDateTime) (lc : Str) (fc : Int)
    (convs : List (Str × List (Str × Str))) (k0 : Str) (m0 : EI.NormMapping)
    (rs : List (Str × EI.NormMapping)) (badRow goodRow : Row) (gk : Str) (gm : EI.NormMapping)
    (rest records : List Row)
    (h1 : normalizeOptionalStr cfg.languageColumn = some lc)
    (h2 : cfg.facilityCode = some fc)
    (h3 : EI.normalizeValueConversions cfg.valueConversions = .ok convs)
    (h4 : (cfg.languageMappings.isEmpty &&
            (if (EI.sanitizeRef cfg.mapping).isNoneRef = true then EI.sanitizeRef corp.mapping
             else EI.sanitizeRef cfg.mapping).isNoneRef) = false)
    (h5 : EI.buildLanguageMappings (dictMerge (dictMerge base corp.mappings) cfg.mappings)
            (if (EI.sanitizeRef cfg.mapping).isNoneRef = true then EI.sanitizeRef corp.mapping
             else EI.sanitizeRef cfg.mapping) cfg.languageMappings = .ok ((k0, m0) :: rs))
    (h6 : (match EI.normalizeLanguageKey (rowGet badRow lc) with
           | some k => alookup ((k0, m0) :: rs) k
           | none => none) = none)
    (h7 : alookup ((k0, m0) :: rs) defaultName = none)
    (h8 : EI.normalizeLanguageKey (rowGet goodRow lc) = some gk)
    (h9 : alookup ((k0, m0) :: rs) gk = some gm) :
    EI.facilityImport cfg corp base tbl (badRow :: rest) now =
      EI.facilityImport cfg corp base tbl rest now ∧
    EI.facilityImport cfg corp base tbl [goodRow] now = .ok
      ((if cfg.deleteFlag.getD true
        then [DbOp.del ((normalizeOptionalStr cfg.table).getD tbl) fc] else []) ++
       [DbOp.ins ((normalizeOptionalStr cfg.table).getD tbl) (EI.buildOrderedKeys m0)
          [EI.bufferRowOf goodRow gm convs fc cfg.keyPre cfg.keySuf now (EI.buildOrderedKeys m0)],
        DbOp.commit]) ∧
    exIsOk (EI.facilityImport cfg corp base tbl records now) = true := by
  refine ⟨?_, ?_, ?_⟩
  · unfold EI.facilityImport
    rw [h2, h3, h1]
    simp only [Except.instMonad, Except.bind, bind, pure, Except.pure, Except.map]
    rw [h4]
    simp only [Bool.false_eq_true, if_false]
    rw [h5]
    simp only [Except.instMonad, Except.bind, bind, pure, Except.pure, Except.map]
    rw [List.filterMap_cons]
    rw [h6]
    simp only [Option.orElse, h7]
  · unfold EI.facilityImport
    rw [h2, h3, h1]
    simp only [Except.instMonad, Except.bind, bind, pure, Except.pure, Except.map]
    rw [h4]
    simp only [Bool.false_eq_true, if_false]
    rw [h5]
    simp only [Except.instMonad, Except.bind, bind, pure, Except.pure, Except.map]
    rw [List.filterMap_cons]
    rw [h8]
    simp only [h9, Option.orElse, h7, List.filterMap_nil]
    simp [h7]
  · unfold EI.facilityImport
    rw [h2, h3, h1]
    simp only [Except.instMonad, Except.bind, bind, pure, Except.pure, Except.map]
    rw [h4]
    simp only [Bool.false_eq_true, if_false]
    rw [h5]
    simp only [Except.instMonad, Except.bind, bind, pure, Except.pure, Except.map]
    rfl

/-- Witness for C8: the zh row is skipped, the en row is imported with the
English variant, and the import succeeds. -/
theorem c8_unmatched_language_row_skipped_witness :
    EI.facilityImport Fx.fxCfgLang Fx.fxCorp [] ("enquetes".data)
        (Fx.fxRowZh :: [Fx.fxRowJa]) Fx.fxNow =
      EI.facilityImport Fx.fxCfgLang Fx.fxCorp [] ("enquetes".data) [Fx.fxRowJa] Fx.fxNow ∧
    EI.facilityImport Fx.fxCfgLang Fx.fxCorp [] ("enquetes".data) [Fx.fxRowEn] Fx.fxNow = .ok
      [DbOp.del ("enquetes".data) 3,
       DbOp.ins ("enquetes".data)
         (EI.buildOrderedKeys ⟨[(roomKey, "Room".data)], [], [], [], []⟩)
         [EI.bufferRowOf Fx.fxRowEn ⟨[(roomKey, "Room".data)], [], [], [], []⟩ [] 3 none none
            Fx.fxNow (EI.buildOrderedKeys ⟨[(roomKey, "Room".data)], [], [], [], []⟩)],
       DbOp.commit] ∧
    exIsOk (EI.facilityImport Fx.fxCfgLang Fx.fxCorp [] ("enquetes".data)
      [Fx.fxRowZh, Fx.fxRowEn] Fx.fxNow) = true :=
  c8_unmatched_language_row_skipped Fx.fxCfgLang Fx.fxCorp [] ("enquetes".data) Fx.fxNow
    ("Lang".data) 3 [] ("en".data) ⟨[(roomKey, "Room".data)], [], [], [], []⟩
    [(("ja".data), ⟨[(roomKey, "部屋".data)], [], [], [], []⟩)]
    Fx.fxRowZh Fx.fxRowEn ("en".data) ⟨[(roomKey, "Room".data)], [], [], [], []⟩
    [Fx.fxRowJa] [Fx.fxRowZh, Fx.fxRowEn]
    rfl rfl rfl (by decide) rfl (by decide) (by decide) (by decide) (by decide)

/-- C9: every buffered insert row is serialized along the ordered key list of
the job's mapping, so it has exactly the columns of the insert statement, in
order: the ordered keys are the five sections' destination columns in the
fixed section order followed by the three generated columns, every buffered
row has that length, and every buffered row is the per-key lookup of some
record. -/
theorem c9_buffer_alignment (cfg : EI.FacilityConfig) (corp : EI.CorpConfig) (base : List (Str × EI.RawMapping))
    (tbl : Str) (records : List Row) (now : PyDateTime) (ops : List DbOp)
    (m : EI.NormMapping) (convs : List (Str × List (Str × Str))) (fc : Int)
    (t : Str) (cols : List Str) (rows : List (List Value))
    (h1 : normalizeOptionalStr cfg.languageColumn = none)
    (h2 : cfg.facilityCode = some fc)
    (h3 : EI.normalizeValueConversions cfg.valueConversions = .ok convs)
    (h4 : EI.resolveMapping (dictMerge (dictMerge base corp.mappings) cfg.mappings)
            (if (EI.sanitizeRef cfg.mapping).isNoneRef = true then EI.sanitizeRef corp.mapping
             else EI.sanitizeRef cfg.mapping) = .ok m)
    (h5 : EI.facilityImport cfg corp base tbl records now = .ok ops)
    (h6 : DbOp.ins t cols rows ∈ ops) :
    cols = EI.buildOrderedKeys m ∧
    EI.buildOrderedKeys m =
      m.stringSec.map Prod.fst ++ m.textSec.map Prod.fst ++ m.integerSec.map Prod.fst ++
        m.dateSec.map Prod.fst ++ m.datetimeSec.map Prod.fst ++ [fcKey, ekKey, idKey] ∧
    (∀ r ∈ rows, r.length = cols.length) ∧
    (∀ r ∈ rows, ∃ rec : List (Str × Value),
      r = cols.map (fun k => (alookup rec k).getD Value.null)) := by
  have hshape : EI.facilityImport cfg corp base tbl records now = .ok
      ((if cfg.deleteFlag.getD true
        then [DbOp.del ((normalizeOptionalStr cfg.table).getD tbl) fc] else []) ++
       (if (records.map (fun r =>
              EI.bufferRowOf r m convs fc cfg.keyPre cfg.keySuf now
                (EI.buildOrderedKeys m))).isEmpty
        then [DbOp.commit]
        else [DbOp.ins ((normalizeOptionalStr cfg.table).getD tbl) (EI.buildOrderedKeys m)
                (records.map (fun r =>
                  EI.bufferRowOf r m convs fc cfg.keyPre cfg.keySuf now
                    (EI.buildOrderedKeys m))),
              DbOp.commit])) := by
    unfold EI.facilityImport
    rw [h2, h3, h1]
    simp only [Except.instMonad, Except.bind, bind, pure, Except.pure, Except.map]
    rw [h4]
    simp only [Except.instMonad, Except.bind, bind, pure, Except.pure, Except.map]
    rw [filterMap_all_some]
  rw [hshape] at h5
  simp only [Except.ok.injEq] at h5
  subst h5
  by_cases hbe : (records.map (fun r =>
      EI.bufferRowOf r m convs fc cfg.keyPre cfg.keySuf now (EI.buildOrderedKeys m))).isEmpty
  · rw [if_pos hbe] at h6
    split_ifs at h6 <;> simp at h6
  · rw [if_neg hbe] at h6
    have hins : t = (normalizeOptionalStr cfg.table).getD tbl ∧
        cols = EI.buildOrderedKeys m ∧
        rows = records.map (fun r =>
          EI.bufferRowOf r m convs fc cfg.keyPre cfg.keySuf now (EI.buildOrderedKeys m)) := by
      split_ifs at h6 <;> simpa using h6
    obtain ⟨ht, hcols, hrows⟩ := hins
    refine ⟨hcols, by simp [EI.buildOrderedKeys, generatedFields], ?_, ?_⟩
    · intro r hr
      rw [hrows] at hr
      rcases List.mem_map.mp hr with ⟨row, _, hrow⟩
      rw [← hrow, hcols]
      simp [EI.bufferRowOf]
    · intro r hr
      rw [hrows] at hr
      rcases List.mem_map.mp hr with ⟨row, _, hrow⟩
      refine ⟨dictMerge (EI.makeRecordFromRow row m convs)
        (EI.buildGeneratedFields row m fc cfg.keyPre cfg.keySuf convs now), ?_⟩
      rw [← hrow, hcols]
      rfl

/-- Witness for C9 at a one-row import. -/
theorem c9_buffer_alignment_witness :
    [roomKey, fcKey, ekKey, idKey] =
      EI.buildOrderedKeys ⟨[(roomKey, "部屋".data)], [], [], [], []⟩ ∧
    EI.buildOrderedKeys ⟨[(roomKey, "部屋".data)], [], [], [], []⟩ =
      [(roomKey, "部屋".data)].map Prod.fst ++
        ([] : List (Str × Str)).map Prod.fst ++ ([] : List (Str × Str)).map Prod.fst ++
        ([] : List (Str × Str)).map Prod.fst ++ ([] : List (Str × Str)).map Prod.fst ++
        [fcKey, ekKey, idKey] ∧
    (∀ r ∈ [[Value.str ("101".data), Value.int 7, Value.null, Value.dt Fx.fxNow]],
      r.length = [roomKey, fcKey, ekKey, idKey].length) ∧
    (∀ r ∈ [[Value.str ("101".data), Value.int 7, Value.null, Value.dt Fx.fxNow]],
      ∃ rec : List (Str × Value),
        r = [roomKey, fcKey, ekKey, idKey].map (fun k => (alookup rec k).getD Value.null)) :=
  c9_buffer_alignment Fx.fxCfgDefault Fx.fxCorp [] ("enquetes".data) [Fx.fxRow5] Fx.fxNow
    [DbOp.del ("enquetes".data) 7,
     DbOp.ins ("enquetes".data) [roomKey, fcKey, ekKey, idKey]
       [[Value.str ("101".data), Value.int 7, Value.null, Value.dt Fx.fxNow]],
     DbOp.commit]
    ⟨[(roomKey, "部屋".data)], [], [], [], []⟩ [] 7
    ("enquetes".data) [roomKey, fcKey, ekKey, idKey]
    [[Value.str ("101".data), Value.int 7, Value.null, Value.dt Fx.fxNow]]
    rfl rfl rfl rfl rfl (by decide)

theorem dropWhile_dropWhile (p : Char → Bool) (l : List Char) :
    (l.dropWhile p).dropWhile p = l.dropWhile p := by
  induction l with
  | nil => simp
  | cons a t ih =>
    by_cases hpa : p a
    · simp [List.dropWhile_cons, hpa, ih]
    · simp [List.dropWhile_cons, hpa]

theorem dropWhile_cons_eq_self {p : Char → Bool} {a : Char} {l : List Char}
    (h : (a :: l).dropWhile p = a :: l) : p a = false := by
  by_cases hpa : p a
  · rw [List.dropWhile_cons, if_pos hpa] at h
    have h1 : (l.dropWhile p).length = l.length + 1 := by rw [h]; simp
    have h2 : (l.dropWhile p).length ≤ l.length := (List.dropWhile_sublist p (l := l)).length_le
    omega
  · simpa using hpa

theorem dropWhile_of_prefix {p : Char → Bool} {u v : List Char}
    (hu : u.dropWhile p = u) (hv : v <+: u) : v.dropWhile p = v := by
  cases v with
  | nil => simp
  | cons a t =>
    rcases hv with ⟨w, hw⟩
    rw [← hw, List.cons_append] at hu
    have hpa := dropWhile_cons_eq_self hu
    simp [List.dropWhile_cons, hpa]

theorem pyStrip_idem (l : Str) : pyStrip (pyStrip l) = pyStrip l := by
  unfold pyStrip
  have hdu : (l.dropWhile isPySpace).dropWhile isPySpace = l.dropWhile isPySpace :=
    dropWhile_dropWhile _ l
  have hw_pre : ((l.dropWhile isPySpace).reverse.dropWhile isPySpace).reverse <+:
      l.dropWhile isPySpace := by
    rw [← List.reverse_suffix, List.reverse_reverse]
    exact List.dropWhile_suffix _
  have hdw := dropWhile_of_prefix hdu hw_pre
  rw [hdw, List.reverse_reverse, dropWhile_dropWhile]

theorem mem_pyStrip {c : Char} {l : Str} (h : c ∈ pyStrip l) : c ∈ l := by
  unfold pyStrip at h
  rw [List.mem_reverse] at h
  have h2 := (List.dropWhile_suffix (l := (l.dropWhile isPySpace).reverse) isPySpace).sublist.mem h
  rw [List.mem_reverse] at h2
  exact (List.dropWhile_suffix isPySpace).sublist.mem h2

theorem not_mem_spaceFold_fwSpace (l : Str) : fwSpace ∉ spaceFold l := by
  intro h
  rcases List.mem_map.mp h with ⟨a, _, ha⟩
  by_cases h0 : a = fwSpace
  · rw [if_pos h0] at ha
    exact absurd ha (by decide)
  · rw [if_neg h0] at ha
    exact h0 ha

theorem spaceFold_eq_self {l : Str} (h : fwSpace ∉ l) : spaceFold l = l := by
  induction l with
  | nil => rfl
  | cons a t ih =>
    have ha : ¬ a = fwSpace := by intro h0; exact h (h0 ▸ List.mem_cons_self a t)
    have ht : fwSpace ∉ t := fun h0 => h (List.mem_cons_of_mem a h0)
    simp only [spaceFold, List.map_cons, if_neg ha]
    exact congrArg (a :: ·) (ih ht)

theorem mem_glyphFold {c : Char} {l : Str} (h : c ∈ glyphFold l) :
    c = '/' ∨ (c ∈ l ∧ ¬ c = '年' ∧ ¬ c = '月' ∧ ¬ c = '日') := by
  rcases List.mem_filterMap.mp h with ⟨a, hal, ha⟩
  by_cases h1 : a = '日'
  · rw [if_pos h1] at ha; cases ha
  · rw [if_neg h1] at ha
    by_cases h2 : a = '年' || a = '月'
    · rw [if_pos h2] at ha
      exact Or.inl (Option.some.injEq _ _ |>.mp ha).symm
    · rw [if_neg h2] at ha
      have hac : a = c := (Option.some.injEq _ _).mp ha
      subst hac
      simp only [Bool.or_eq_true, decide_eq_true_eq, not_or] at h2
      exact Or.inr ⟨hal, h2.1, h2.2, h1⟩

/-- C4: datetime parsing is invariant under first replacing the native year
and month glyphs by slashes and dropping the day glyph: for every input
containing a native date glyph (after stripping and full-width-space folding),
the parser yields the same result as parsing the glyph-normalized form, and
in particular the example with native separators parses equal to its slash
form. -/
theorem c4_native_glyph_invariance (s : Str)
    (hg : hasDateGlyph (spaceFold (pyStrip s)) = true) :
    parseDatetimeValue (some s) =
      parseDatetimeValue (some (glyphFold (spaceFold (pyStrip s)))) ∧
    parseDatetimeValue (some ("2024年3月5日".data)) =
      parseDatetimeValue (some ("2024/3/5".data)) := by
  refine ⟨?_, by decide⟩
  have h1 : pyStrip s ≠ [] := by
    intro h
    rw [h] at hg
    exact absurd hg (by decide)
  have h2 : pyStrip s ≠ ['0'] := by
    intro h
    rw [h] at hg
    exact absurd hg (by decide)
  set g := glyphFold (spaceFold (pyStrip s)) with hgdef
  have hgfw : fwSpace ∉ g := by
    intro hmem
    rw [hgdef] at hmem
    rcases mem_glyphFold hmem with h | ⟨hmem2, _⟩
    · exact absurd h (by decide)
    · exact not_mem_spaceFold_fwSpace _ hmem2
  have hpgfw : fwSpace ∉ pyStrip g := fun hm => hgfw (mem_pyStrip hm)
  have hsf : spaceFold (pyStrip g) = pyStrip g := spaceFold_eq_self hpgfw
  have hnog : hasDateGlyph (pyStrip g) = false := by
    rw [Bool.eq_false_iff]
    intro hany
    rcases List.any_eq_true.mp hany with ⟨c, hc, hpred⟩
    have hcg : c ∈ g := mem_pyStrip hc
    rw [hgdef] at hcg
    rcases mem_glyphFold hcg with h | ⟨_, hy, hm, hd⟩
    · rw [h] at hpred
      exact absurd hpred (by decide)
    · simp only [Bool.or_eq_true, decide_eq_true_eq] at hpred
      tauto
  have hLHS : parseDatetimeValue (some s) =
      (match dateutilCore (pyStrip g) with
       | none => none
       | some dt =>
         some (if dt.tzName = none then { dt with tzName := some jstName } else dt)) := by
    simp [parseDatetimeValue, dateutilParse, normalizeCellValue, h1, h2, hg, hgdef]
  by_cases hc0 : pyStrip g = []
  · have hR : parseDatetimeValue (some g) = none := by
      simp [parseDatetimeValue, normalizeCellValue, hc0]
    rw [hLHS, hR, hc0]
    decide
  · by_cases hc1 : pyStrip g = ['0']
    · have hR : parseDatetimeValue (some g) = none := by
        simp [parseDatetimeValue, normalizeCellValue, hc1]
      rw [hLHS, hR, hc1]
      decide
    · have hRHS : parseDatetimeValue (some g) =
          (match dateutilCore (pyStrip g) with
           | none => none
           | some dt =>
             some (if dt.tzName = none then { dt with tzName := some jstName } else dt)) := by
        simp [parseDatetimeValue, dateutilParse, normalizeCellValue, hc0, hc1, hsf, hnog,
          pyStrip_idem]
      rw [hLHS, hRHS]

/-- Witness for C4 at the example input with native glyphs. -/
theorem c4_native_glyph_invariance_witness :
    parseDatetimeValue (some ("2024年3月5日".data)) =
      parseDatetimeValue (some (glyphFold (spaceFold (pyStrip ("2024年3月5日".data))))) ∧
    parseDatetimeValue (some ("2024年3月5日".data)) =
      parseDatetimeValue (some ("2024/3/5".data)) :=
  c4_native_glyph_invariance ("2024年3月5日".data) (by decide)

theorem alookup_mem {κ α : Type} [DecidableEq κ] {d : List (κ × α)} {k : κ} {v : α}
    (h : alookup d k = some v) : (k, v) ∈ d := by
  induction d with
  | nil => simp [alookup] at h
  | cons p rest ih =>
    by_cases hpk : p.1 = k
    · rw [alookup, if_pos hpk] at h
      have : p = (k, v) := by
        rcases p with ⟨pk, pv⟩
        simp at hpk h
        exact Prod.ext hpk h
      exact this ▸ List.mem_cons_self _ _
    · rw [alookup, if_neg hpk] at h
      exact List.mem_cons_of_mem _ (ih h)

theorem setdefaultStep_pres (h0 : GS.Heap) (copyAddr : Nat) (hc : h0.next ≤ copyAddr)
    (hh hh' : GS.Heap) (p : Str × Nat)
    (hn : h0.next ≤ hh.next) (hl : ∀ b, b < h0.next → GS.hget hh b = GS.hget h0 b)
    (hstep : GS.setdefaultStep copyAddr hh p = .ok hh') :
    h0.next ≤ hh'.next ∧ ∀ b, b < h0.next → GS.hget hh' b = GS.hget h0 b := by
  unfold GS.setdefaultStep at hstep
  cases hcv : GS.hget hh p.2 with
  | none => rw [hcv] at hstep; cases hstep
  | some cv =>
    rw [hcv] at hstep
    dsimp only at hstep
    have hget1 : ∀ b, b < h0.next →
        GS.hget ⟨hh.next + 1, (hh.next, cv) :: hh.mem⟩ b = GS.hget h0 b := by
      intro b hb
      have hne : hh.next ≠ b := by omega
      rw [← hl b hb]
      simp [GS.hget, alookup, hne]
    cases hg1 : GS.hget ⟨hh.next + 1, (hh.next, cv) :: hh.mem⟩ copyAddr with
    | none => rw [hg1] at hstep; cases hstep
    | some m =>
      rw [hg1] at hstep
      cases m with
      | dict es =>
        simp only [pure, Except.pure, Except.ok.injEq] at hstep
        rw [← hstep]
        by_cases hsd : (alookup es p.1).isSome
        · rw [if_pos hsd]
          exact ⟨by simp; omega, hget1⟩
        · rw [if_neg hsd]
          refine ⟨by simp [GS.hset]; omega, ?_⟩
          intro b hb
          have hne : copyAddr ≠ b := by omega
          rw [← hget1 b hb]
          simp [GS.hset, GS.hget, alookup_aupdate_ne _ _ _ _ hne]
      | str s => cases hstep
      | intV n => cases hstep
      | null => cases hstep
      | listV xs => cases hstep

theorem foldlM_setdefault_pres (h0 : GS.Heap) (copyAddr : Nat) (hc : h0.next ≤ copyAddr)
    (l : List (Str × Nat)) :
    ∀ (hh hh' : GS.Heap),
      h0.next ≤ hh.next → (∀ b, b < h0.next → GS.hget hh b = GS.hget h0 b) →
      l.foldlM (GS.setdefaultStep copyAddr) hh = .ok hh' →
      h0.next ≤ hh'.next ∧ ∀ b, b < h0.next → GS.hget hh' b = GS.hget h0 b := by
  induction l with
  | nil =>
    intro hh hh' hn hl hfold
    simp only [List.foldlM_nil, pure, Except.pure, Except.ok.injEq] at hfold
    exact hfold ▸ ⟨hn, hl⟩
  | cons x xs ih =>
    intro hh hh' hn hl hfold
    rw [List.foldlM_cons] at hfold
    cases hstep : GS.setdefaultStep copyAddr hh x with
    | error e =>
      rw [hstep] at hfold
      simp [Except.instMonad, Except.bind, bind] at hfold
    | ok h1 =>
      rw [hstep] at hfold
      simp only [Except.instMonad, Except.bind, bind] at hfold
      obtain ⟨hn1, hl1⟩ := setdefaultStep_pres h0 copyAddr hc hh h1 x hn hl hstep
      exact ih h1 hh' hn1 hl1 hfold

/-- C10: heap-level resolve_mapping never mutates any pre-existing object:
the deep copy allocates a fresh address and the setdefault merging of shared
conversion entries writes only to that fresh address, so after a successful
resolution every allocated address of the original heap, the catalog's
mapping objects and any inline reference object included, holds exactly its
previous contents. -/
theorem c10_resolve_mapping_frame (h : GS.Heap) (catalog : List (Str × Nat)) (reference : GS.HRef) (a : Nat)
    (hwf : GS.heapWF h) (ha : (GS.hget h a).isSome = true)
    (hok : exIsOk (GS.resolveMappingHeap h catalog reference) = true) :
    GS.hget (GS.exHeapOf (GS.resolveMappingHeap h catalog reference)) a = GS.hget h a := by
  have halt : a < h.next := by
    cases hv : GS.hget h a with
    | none => rw [hv] at ha; cases ha
    | some v => exact hwf (a, v) (alookup_mem hv)
  unfold GS.resolveMappingHeap at hok ⊢
  cases hrt : GS.refTarget h catalog reference with
  | error e =>
    rw [hrt] at hok
    simp [exIsOk] at hok
  | ok srcVal =>
    rw [hrt] at hok
    dsimp only at hok ⊢
    cases hfold : (catalog.filter (fun p => GS.isConversionKey p.1)).foldlM
        (GS.setdefaultStep h.next) ⟨h.next + 1, (h.next, srcVal) :: h.mem⟩ with
    | error e =>
      rw [hfold] at hok
      simp [exIsOk] at hok
    | ok h2 =>
      rw [hfold] at hok
      dsimp only at hok ⊢
      obtain ⟨hn2, hl2⟩ := foldlM_setdefault_pres h h.next (le_refl _)
        (catalog.filter (fun p => GS.isConversionKey p.1))
        ⟨h.next + 1, (h.next, srcVal) :: h.mem⟩ h2 (by simp)
        (fun b hb => by
          have hne : h.next ≠ b := by omega
          simp [GS.hget, alookup, hne])
        hfold
      cases hg2 : GS.hget h2 h.next with
      | none =>
        rw [hg2] at hok
        simp [exIsOk] at hok
      | some m =>
        rw [hg2] at hok
        dsimp only at hok ⊢
        cases hnm : GS.normalizeMappingG m with
        | error e =>
          rw [hnm] at hok
          simp [exIsOk] at hok
        | ok nm =>
          rw [hnm] at hok
          dsimp only at hok ⊢
          simp only [GS.exHeapOf]
          exact hl2 a halt

/-- Witness for C10 at a two-object heap whose catalog carries a default
mapping and a root conversion entry. -/
theorem c10_resolve_mapping_frame_witness :
    GS.hget (GS.exHeapOf (GS.resolveMappingHeap Fx.fxHeap Fx.fxCatalog
      (GS.HRef.name defaultName))) 0 = GS.hget Fx.fxHeap 0 :=
  c10_resolve_mapping_frame Fx.fxHeap Fx.fxCatalog (GS.HRef.name defaultName) 0
    (by intro p hp
        simp only [Fx.fxHeap, List.mem_cons, List.not_mem_nil, or_false] at hp
        rcases hp with rfl | rfl <;> decide)
    rfl rfl

end Enq




